import Mathlib

/-!
Verification of the leo-services cross-process trading substrate.

Shallow embedding of the Python sources under src/kraken/:
  kraken_nonce.py   — the sequence (nonce) coordinator
  usd_allocator.py  — the capital-admission allocator
  kraken_btc.py, kraken_eth.py, kraken_xmr.py, kraken_sol.py, kraken_xrp.py
                    — the per-asset swing-trading workers

Python floats are modelled by exact rationals (ℚ); Python `round(x, d)`
(round-half-to-even) is modelled exactly on ℚ.  File I/O on the shared
nonce file is modelled as a transformation of the file's string content;
the flock critical section corresponds to the whole function being one
atomic step.  Exceptions are modelled by Option/flags.
-/

/-- Python `round()` tie-breaking: round half to even (banker's rounding),
on exact rationals. -/
def round_half_even (x : ℚ) : ℤ :=
  let f := ⌊x⌋
  let r := x - f
  if r < 1/2 then f
  else if 1/2 < r then f + 1
  else if f % 2 = 0 then f else f + 1

/-- Python `round(x, d)` on exact rationals. -/
def round_to (d : ℕ) (x : ℚ) : ℚ :=
  (round_half_even (x * 10 ^ d) : ℚ) / 10 ^ d

/-- The character for a decimal digit value (`0 ↦ '0'`, …, `9 ↦ '9'`). -/
def digitChar (d : ℕ) : Char := Char.ofNat (48 + d)

/-- Fuel-driven decimal printer: the digit characters of `n`, most
significant first ( `[]` for `n = 0`).  Adequate whenever `n ≤ fuel`. -/
def toDecimalAux : ℕ → ℕ → List Char
  | 0, _ => []
  | fuel + 1, n =>
    if n = 0 then []
    else toDecimalAux fuel (n / 10) ++ [digitChar (n % 10)]

/-- Models Python `str(n)` for a non-negative integer `n`. -/
def natToDecimal (n : ℕ) : String :=
  if n = 0 then "0" else (toDecimalAux (n + 1) n).asString

/-- The numeric value of a non-empty all-digit character list
(most significant first); `none` otherwise. -/
def digitsVal? (cs : List Char) : Option ℕ :=
  if cs ≠ [] ∧ cs.all Char.isDigit then
    some (cs.foldl (fun a c => 10 * a + (c.toNat - 48)) 0)
  else none

/-- Models Python `int(s)` on a stripped string: an optional sign followed
by digits; anything else raises `ValueError` (`none`).  (Python additionally
accepts underscore digit separators, never produced by this program.) -/
def python_int (s : String) : Option ℤ :=
  match s.toList with
  | [] => none
  | c :: rest =>
    if c = '-' then (digitsVal? rest).map (fun n => -(n : ℤ))
    else if c = '+' then (digitsVal? rest).map (fun n => (n : ℤ))
    else (digitsVal? (c :: rest)).map (fun n => (n : ℤ))

/-- Models Python `str.strip()`: remove whitespace from both ends. -/
def pystrip (s : String) : String :=
  (((s.toList.dropWhile Char.isWhitespace).reverse.dropWhile
      Char.isWhitespace).reverse).asString

/-- `get_nonce` from kraken_nonce.py, as a transformation of the nonce
file's content given the current wall-clock millisecond reading `now`:
  data = f.read().strip(); last = int(data) if data else 0;
  nonce = max(now, last + 1); f.write(str(nonce)); return nonce.
Returns `none` when `int(data)` raises (corrupt content); otherwise the
returned nonce together with the exact new file content. -/
def get_nonce (content : String) (now : ℕ) : Option (ℕ × String) :=
  let data := pystrip content
  match (if data = "" then some (0 : ℤ) else python_int data) with
  | none => none
  | some last =>
    let nonce : ℤ := max (now : ℤ) (last + 1)
    some (nonce.toNat, natToDecimal nonce.toNat)

/-- Sequential (non-overlapping) calls to `get_nonce`, one per wall-clock
reading in `ts`, starting from file content `content`; the list of
returned values, or `none` if some call raises. -/
def nonce_trace (content : String) : List ℕ → Option (List ℕ)
  | [] => some []
  | t :: ts =>
    match get_nonce content t with
    | none => none
    | some (v, c) => (nonce_trace c ts).map (fun vs => v :: vs)

/-- `ASSET_LIMITS_USD` from usd_allocator.py. -/
def ASSET_LIMITS_USD : List (String × ℚ) :=
  [("BTC", 100), ("ETH", 100), ("XMR", 100), ("SOL", 100), ("XRP", 100)]

/-- `MIN_TRADE_USD` from usd_allocator.py. -/
def MIN_TRADE_USD : ℚ := 10

/-- Models Python `str.upper()` (ASCII; asset symbols are ASCII). -/
def pyupper (s : String) : String := (s.toList.map Char.toUpper).asString

/-- `get_allocatable_usd` from usd_allocator.py.  `none` models the
`ValueError` raised for an unconfigured asset. -/
def get_allocatable_usd (asset : String)
    (usd_total_available usd_committed_by_asset : ℚ) : Option ℚ :=
  let asset := pyupper asset
  match ASSET_LIMITS_USD.lookup asset with
  | none => none
  | some asset_cap =>
    let asset_remaining := asset_cap - usd_committed_by_asset
    if asset_remaining ≤ 0 then some 0
    else
      let tradeable_usd := min asset_remaining usd_total_available
      if tradeable_usd < MIN_TRADE_USD then some 0
      else some (round_to 2 tradeable_usd)

/-- The nonce placed in the signed body by `k_private` (kraken_btc.py line
124, identical in the ETH/XMR/SOL/XRP workers): `str(int(time.time() *
1000))` — the wall-clock millisecond reading itself.  `get_nonce` is not
called and the shared nonce file is neither read nor written. -/
def k_private_nonce (now_ms : ℕ) : ℕ := now_ms

/-- The POST body signed by `k_private`: `f"nonce={nonce}&{params}"`. -/
def k_private_post (now_ms : ℕ) (params : String) : String :=
  "nonce=" ++ natToDecimal (k_private_nonce now_ms) ++ "&" ++ params

/-! ### Per-asset trading workers

Shared shapes for the five worker embeddings.  An `Env` packages what one
tick observes from the outside world: the ticker price, the wall-clock
time, the result of `Balance` calls (`none` models a raising/erroring
call; within one tick repeated calls are modelled as returning the same
snapshot), and whether `AddOrder` succeeds (`false` models a raise or an
error response, i.e. no order accepted).  Telegram sends are not modelled
(fire-and-forget); `log_event` appends are collected in `events`. -/

/-- `pct` helper shared by all workers:
`((b - a) / a) * 100.0 if a else 0.0` (a falsy `a`, i.e. `0`, yields 0). -/
def pct (a b : ℚ) : ℚ := if a = 0 then 0 else (b - a) / a * 100

/-- `pct(x, b)` where `x` came from a state field that may be `None`
(`None` is falsy in Python, so the result is 0.0, not an error). -/
def pct_opt : Option ℚ → ℚ → ℚ
  | none, _ => 0
  | some a, b => pct a b

/-- `value or default` on an optional numeric state field: Python's
`or` replaces both `None` and `0` (falsy) by the default. -/
def or_default (x : Option ℚ) (d : ℚ) : ℚ :=
  match x with
  | none => d
  | some v => if v = 0 then d else v

def BUY_PULLBACK : ℚ := -3
def BUY_APPROACH : ℚ := -5/2
def SELL_TARGET : ℚ := 5
def SELL_APPROACH : ℚ := 4
def DRAWDOWN_RESET : ℚ := -12
def MIN_USD_BALANCE : ℚ := 10
def SELL_FRACTION : ℚ := 1/4
def HEARTBEAT_INTERVAL_HOURS : ℚ := 4

/-- One record of the append-only jsonl event log (the payload fields the
claims mention; remaining payload fields are omitted). -/
structure Ev where
  etype : String
  price : Option ℚ := none
  volume : Option ℚ := none
  notional : Option ℚ := none
  unrealized_loss_pct : Option ℚ := none
deriving DecidableEq

/-- A market order submitted to the exchange: side and volume. -/
abbrev Order := String × ℚ

/-- What one tick observes from the outside world. -/
structure Env where
  price : ℚ
  now : ℚ
  balances : Option (ℚ × ℚ)
  order_ok : Bool
deriving DecidableEq

/-- Result of an `execute_buy` / `execute_sell` helper.  `raised` means an
exception escaped the helper (only possible in the workers that do not
catch exchange errors); in that case `state` is the unmutated input state,
since these helpers mutate state only after a successful order. -/
structure ExecOut (σ : Type) where
  state : σ
  executed : Bool
  raised : Bool
  orders : List Order
  events : List Ev
  attempted : Bool
deriving DecidableEq

/-- Result of one `engine_tick`.  `state` is the state persisted on disk
after the tick: the post-tick state if `save_state` was reached
(`completed = true`), the untouched pre-tick state otherwise (an exception
skipped `save_state`).  `events` are the log lines appended (appends
before a crash persist), `orders` the successfully submitted orders, and
`attempted` records whether any `place_market_order` call was made. -/
structure TickOut (σ : Type) where
  state : σ
  completed : Bool
  orders : List Order
  events : List Ev
  attempted : Bool
deriving DecidableEq

/-- Wrap an `ExecOut` into the tick result, as the BTC/ETH/SOL/XRP
workers do implicitly: a raise skips `save_state`, so the persisted state
is the pre-tick state `s0`; otherwise the helper's state is persisted at
the end of the tick. -/
def commit {σ : Type} (s0 : σ) (r : ExecOut σ) : TickOut σ :=
  if r.raised then ⟨s0, false, r.orders, r.events, r.attempted⟩
  else ⟨r.state, true, r.orders, r.events, r.attempted⟩

namespace Btc

/-- Persisted state of kraken_btc.py (`DEFAULT_STATE` fields; after
`load_state`, `usd_slice` is a float). -/
structure State where
  mode : String
  entry_price : Option ℚ
  last_swing_high : Option ℚ
  buy_approach_sent : Bool
  sell_approach_sent : Bool
  entry_time : Option ℚ
  usd_slice : ℚ
deriving DecidableEq

/-- The state `load_state` produces on first run (no state file):
`DEFAULT_STATE` with `usd_slice` initialised from `BTC_USD_SLICE_INIT`. -/
def initState (slice_init : ℚ) : State :=
  { mode := "idle", entry_price := none, last_swing_high := none,
    buy_approach_sent := false, sell_approach_sent := false,
    entry_time := none, usd_slice := slice_init }

/-- `execute_buy` from kraken_btc.py.  Balance fetch and order submission
raise out of this function (not caught). -/
def execute_buy (env : Env) (s : State) : ExecOut State :=
  match env.balances with
  | none => ⟨s, false, true, [], [], false⟩
  | some (_, usd_bal) =>
    let slice_before := s.usd_slice
    let usd_avail := min slice_before usd_bal
    if usd_avail < MIN_USD_BALANCE then
      ⟨s, false, false, [], [], false⟩
    else
      let usd_to_spend := usd_avail
      let volume := round_to 8 (usd_to_spend / env.price)
      if env.order_ok then
        let s' : State :=
          { s with usd_slice := max 0 (slice_before - usd_to_spend),
                   entry_price := some env.price,
                   entry_time := some env.now,
                   mode := "hold",
                   sell_approach_sent := false }
        ⟨s', true, false, [("buy", volume)],
          [{ etype := "btc_buy", price := some env.price,
             volume := some volume }], true⟩
      else ⟨s, false, true, [], [], true⟩

/-- `execute_sell` from kraken_btc.py.  Note: `entry_price` is not
cleared and `sell_approach_sent` is not reset on a sell. -/
def execute_sell (reason : String) (env : Env) (s : State) : ExecOut State :=
  match env.balances with
  | none => ⟨s, false, true, [], [], false⟩
  | some (btc_bal, _) =>
    let volume := round_to 8 (btc_bal * SELL_FRACTION)
    let notional := volume * env.price
    if notional < MIN_USD_BALANCE then
      ⟨s, false, false, [], [], false⟩
    else if env.order_ok then
      let s' : State :=
        { s with usd_slice := s.usd_slice + notional, mode := "reset" }
      ⟨s', true, false, [("sell", volume)],
        [{ etype := "btc_sell_" ++ reason, price := some env.price,
           volume := some volume, notional := some notional }], true⟩
    else ⟨s, false, true, [], [], true⟩

/-- Swing-high tracking at the top of `engine_tick` (kraken_btc.py lines
329-334): initialise `last_swing_high` on first sight, raise it and
re-arm the buy-approach alert on a new high. -/
def track_swing_high (price : ℚ) (s : State) : State :=
  let s1 := if s.last_swing_high = none
            then { s with last_swing_high := some price } else s
  if s1.last_swing_high.getD price < price
  then { s1 with last_swing_high := some price, buy_approach_sent := false }
  else s1

/-- The IDLE branch of `engine_tick` (kraken_btc.py lines 339-344);
`s0` is the pre-tick state, kept in case the buy raises. -/
def idle_step (env : Env) (s0 s : State) : TickOut State :=
  let s3 := if ¬ s.buy_approach_sent ∧
               pct_opt s.last_swing_high env.price ≤ BUY_APPROACH
            then { s with buy_approach_sent := true } else s
  if pct_opt s.last_swing_high env.price ≤ BUY_PULLBACK then
    commit s0 (execute_buy env s3)
  else ⟨s3, true, [], [], false⟩

/-- The HOLD branch of `engine_tick` (kraken_btc.py lines 347-354). -/
def hold_step (env : Env) (s0 s : State) : TickOut State :=
  let gain := pct_opt s.entry_price env.price
  if gain ≤ DRAWDOWN_RESET then
    commit s0 (execute_sell "drawdown_reset" env s)
  else if SELL_TARGET ≤ gain then
    commit s0 (execute_sell "target" env s)
  else ⟨s, true, [], [], false⟩

/-- The RESET branch of `engine_tick` (kraken_btc.py lines 357-360). -/
def reset_step (env : Env) (s : State) : TickOut State :=
  if pct_opt s.last_swing_high env.price ≤ BUY_PULLBACK then
    ⟨{ s with mode := "idle", buy_approach_sent := false },
      true, [], [], false⟩
  else ⟨s, true, [], [], false⟩

/-- `engine_tick` from kraken_btc.py (the ticker fetch is assumed to
succeed; a raising fetch would abort before any mutation). -/
def engine_tick (env : Env) (s0 : State) : TickOut State :=
  let s := track_swing_high env.price s0
  if s.mode = "idle" then idle_step env s0 s
  else if s.mode = "hold" then hold_step env s0 s
  else if s.mode = "reset" then reset_step env s
  else ⟨s, true, [], [], false⟩

/-- States reachable by the BTC worker: the first-run state followed by
any number of ticks (each tick persisting its resulting state). -/
inductive Reachable : State → Prop
  | init (slice_init : ℚ) : Reachable (initState slice_init)
  | step (env : Env) {s : State} :
      Reachable s → Reachable (engine_tick env s).state

/-- The direction of the claimed state-machine invariant that the BTC
worker does maintain: in mode hold, `entry_price` is set. -/
def entry_inv (s : State) : Prop := s.mode = "hold" → s.entry_price ≠ none

end Btc

namespace Eth

/-- Persisted state of kraken_eth.py (`DEFAULT_STATE` fields). -/
structure State where
  mode : String
  entry_price : Option ℚ
  last_swing_high : Option ℚ
  last_swing_low : Option ℚ
  buy_approach_sent : Bool
  sell_approach_sent : Bool
  entry_time : Option ℚ
  usd_slice : ℚ
  last_heartbeat : Option ℚ
deriving DecidableEq

/-- First-run state of the ETH worker. -/
def initState (slice_init : ℚ) : State :=
  { mode := "idle", entry_price := none, last_swing_high := none,
    last_swing_low := none, buy_approach_sent := false,
    sell_approach_sent := false, entry_time := none,
    usd_slice := slice_init, last_heartbeat := none }

/-- `ensure_hold_if_asset_present` from kraken_eth.py: an existing ETH
balance in mode idle is adopted as a held position; `entry_price` is not
touched. -/
def ensure_hold_if_asset_present (s : State) (eth_bal price : ℚ) : State :=
  if 0 < eth_bal ∧ s.mode = "idle" then
    let s1 : State := { s with mode := "hold", sell_approach_sent := false }
    if s1.last_swing_low = none then { s1 with last_swing_low := some price }
    else s1
  else s

/-- `update_swing_extremes` from kraken_eth.py. -/
def update_swing_extremes (s : State) (price : ℚ) : State :=
  let s1 := if s.last_swing_high = none
            then { s with last_swing_high := some price } else s
  let s2 := if s1.last_swing_low = none
            then { s1 with last_swing_low := some price } else s1
  let s3 := if s2.last_swing_high.getD price < price
            then { s2 with last_swing_high := some price,
                           buy_approach_sent := false } else s2
  if s3.mode = "hold" ∧ price < s3.last_swing_low.getD price
  then { s3 with last_swing_low := some price } else s3

/-- `maybe_send_heartbeat` from kraken_eth.py (only the state mutation;
the Telegram message is fire-and-forget). -/
def maybe_send_heartbeat (env : Env) (s : State) : State :=
  if env.now - or_default s.last_heartbeat 0 <
      HEARTBEAT_INTERVAL_HOURS * 3600 then s
  else { s with last_heartbeat := some env.now }

/-- `execute_buy` from kraken_eth.py (errors are not caught; resets the
swing-low anchor to the buy price). -/
def execute_buy (env : Env) (s : State) : ExecOut State :=
  match env.balances with
  | none => ⟨s, false, true, [], [], false⟩
  | some (_, usd_bal) =>
    let slice_before := s.usd_slice
    let usd_avail := min slice_before usd_bal
    if usd_avail < MIN_USD_BALANCE then
      ⟨s, false, false, [], [], false⟩
    else
      let usd_to_spend := usd_avail
      let volume := round_to 8 (usd_to_spend / env.price)
      if env.order_ok then
        let s' : State :=
          { s with usd_slice := max 0 (slice_before - usd_to_spend),
                   entry_price := some env.price,
                   entry_time := some env.now,
                   mode := "hold",
                   sell_approach_sent := false,
                   last_swing_low := some env.price }
        ⟨s', true, false, [("buy", volume)],
          [{ etype := "eth_buy", price := some env.price,
             volume := some volume }], true⟩
      else ⟨s, false, true, [], [], true⟩

/-- `execute_sell` from kraken_eth.py.  The logged event carries price,
volume and notional but no unrealized-loss field. -/
def execute_sell (reason : String) (env : Env) (s : State) : ExecOut State :=
  match env.balances with
  | none => ⟨s, false, true, [], [], false⟩
  | some (eth_bal, _) =>
    let volume := round_to 8 (eth_bal * SELL_FRACTION)
    let notional := volume * env.price
    if notional < MIN_USD_BALANCE then
      ⟨s, false, false, [], [], false⟩
    else if env.order_ok then
      let s' : State :=
        { s with usd_slice := s.usd_slice + notional, mode := "reset",
                 sell_approach_sent := false }
      ⟨s', true, false, [("sell", volume)],
        [{ etype := "eth_sell_" ++ reason, price := some env.price,
           volume := some volume, notional := some notional }], true⟩
    else ⟨s, false, true, [], [], true⟩

/-- The IDLE branch of the ETH `engine_tick`. -/
def idle_step (env : Env) (s0 s : State) : TickOut State :=
  let s3 := if ¬ s.buy_approach_sent ∧
               pct_opt s.last_swing_high env.price ≤ BUY_APPROACH
            then { s with buy_approach_sent := true } else s
  if pct_opt s.last_swing_high env.price ≤ BUY_PULLBACK then
    commit s0 (execute_buy env s3)
  else ⟨s3, true, [], [], false⟩

/-- The HOLD branch of the ETH `engine_tick`: the unrealized-gain anchor
is `last_swing_low or price`, not `entry_price`; the sell-approach alert
flag is set once per leg at +4% ≤ gain < +5%. -/
def hold_step (env : Env) (s0 s : State) : TickOut State :=
  let gain := pct (or_default s.last_swing_low env.price) env.price
  let s3 := if ¬ s.sell_approach_sent ∧ SELL_APPROACH ≤ gain ∧
               gain < SELL_TARGET
            then { s with sell_approach_sent := true } else s
  if gain ≤ DRAWDOWN_RESET then
    commit s0 (execute_sell "drawdown_reset" env s3)
  else if SELL_TARGET ≤ gain then
    commit s0 (execute_sell "target" env s3)
  else ⟨s3, true, [], [], false⟩

/-- The RESET branch of the ETH `engine_tick`. -/
def reset_step (env : Env) (s : State) : TickOut State :=
  if pct_opt s.last_swing_high env.price ≤ BUY_PULLBACK then
    ⟨{ s with mode := "idle", buy_approach_sent := false },
      true, [], [], false⟩
  else ⟨s, true, [], [], false⟩

/-- `engine_tick` from kraken_eth.py.  The top-level balance fetch raises
out of the tick (`none` aborts before any mutation is persisted). -/
def engine_tick (env : Env) (s0 : State) : TickOut State :=
  match env.balances with
  | none => ⟨s0, false, [], [], false⟩
  | some (eth_bal, _usd_bal) =>
    let s := maybe_send_heartbeat env
      (update_swing_extremes
        (ensure_hold_if_asset_present s0 eth_bal env.price) env.price)
    if s.mode = "idle" then idle_step env s0 s
    else if s.mode = "hold" then hold_step env s0 s
    else if s.mode = "reset" then reset_step env s
    else ⟨s, true, [], [], false⟩

end Eth

namespace Xmr

/-- Persisted state of kraken_xmr.py (`DEFAULT_STATE` fields). -/
structure State where
  mode : String
  entry_price : Option ℚ
  last_swing_high : Option ℚ
  buy_approach_sent : Bool
  sell_approach_sent : Bool
  entry_time : Option ℚ
  usd_slice : ℚ
deriving DecidableEq

/-- First-run state of the XMR worker. -/
def initState (slice_init : ℚ) : State :=
  { mode := "idle", entry_price := none, last_swing_high := none,
    buy_approach_sent := false, sell_approach_sent := false,
    entry_time := none, usd_slice := slice_init }

/-- `execute_buy` from kraken_xmr.py.  Unlike the BTC worker, balance and
order errors are caught: an error event is logged and `False` returned,
so the tick continues (state untouched, since mutation follows a
successful order). -/
def execute_buy (env : Env) (s : State) : ExecOut State :=
  match env.balances with
  | none =>
    ⟨s, false, false, [], [{ etype := "xmr_buy_error_balance" }], false⟩
  | some (_, usd_balance) =>
    let slice_before := s.usd_slice
    let usd_available_for_xmr := min slice_before usd_balance
    if usd_available_for_xmr < MIN_USD_BALANCE then
      ⟨s, false, false, [],
        [{ etype := "xmr_buy_skipped_min_usd_slice",
           price := some env.price }], false⟩
    else
      let usd_to_spend := usd_available_for_xmr
      let volume := round_to 8 (usd_to_spend / env.price)
      if volume ≤ 0 then
        ⟨s, false, false, [],
          [{ etype := "xmr_buy_skipped_zero_volume",
             price := some env.price }], false⟩
      else if env.order_ok then
        let s' : State :=
          { s with usd_slice := max 0 (slice_before - usd_to_spend),
                   entry_price := some env.price,
                   entry_time := some env.now,
                   mode := "hold",
                   sell_approach_sent := false }
        ⟨s', true, false, [("buy", volume)],
          [{ etype := "xmr_buy_executed", price := some env.price,
             volume := some volume }], true⟩
      else
        ⟨s, false, false, [],
          [{ etype := "xmr_buy_error_addorder", price := some env.price,
             volume := some volume }], true⟩

/-- `execute_sell` from kraken_xmr.py (errors caught, as in
`execute_buy`; `entry_price` is not cleared on the move to reset). -/
def execute_sell (reason : String) (env : Env) (s : State) : ExecOut State :=
  match env.balances with
  | none =>
    ⟨s, false, false, [],
      [{ etype := "xmr_sell_error_balance_" ++ reason }], false⟩
  | some (xmr_slice, _) =>
    let volume := round_to 8 (xmr_slice * SELL_FRACTION)
    let notional := volume * env.price
    if volume ≤ 0 ∨ notional < MIN_USD_BALANCE then
      ⟨s, false, false, [],
        [{ etype := "xmr_sell_skipped_min_size_" ++ reason,
           price := some env.price, volume := some volume,
           notional := some notional }], false⟩
    else if env.order_ok then
      let s' : State :=
        { s with usd_slice := s.usd_slice + notional, mode := "reset" }
      ⟨s', true, false, [("sell", volume)],
        [{ etype := "xmr_sell_executed_" ++ reason,
           price := some env.price, volume := some volume,
           notional := some notional }], true⟩
    else
      ⟨s, false, false, [],
        [{ etype := "xmr_sell_error_addorder_" ++ reason,
           price := some env.price, volume := some volume }], true⟩

/-- Swing-high tracking at the top of the XMR `engine_tick`. -/
def track_swing_high (price : ℚ) (s : State) : State :=
  let s1 := if s.last_swing_high = none
            then { s with last_swing_high := some price } else s
  if s1.last_swing_high.getD price < price
  then { s1 with last_swing_high := some price, buy_approach_sent := false }
  else s1

/-- The IDLE branch of the XMR `engine_tick` (kraken_xmr.py lines
552-583): a buy that could not execute leaves the engine in idle. -/
def idle_step (env : Env) (s : State) : TickOut State :=
  let s3 := if ¬ s.buy_approach_sent ∧
               pct_opt s.last_swing_high env.price ≤ BUY_APPROACH
            then { s with buy_approach_sent := true } else s
  if pct_opt s.last_swing_high env.price ≤ BUY_PULLBACK then
    let r := execute_buy env s3
    ⟨if r.executed then r.state else { r.state with mode := "idle" },
      true, r.orders, r.events, r.attempted⟩
  else ⟨s3, true, [], [], false⟩

/-- The HOLD branch of the XMR `engine_tick` (kraken_xmr.py lines
586-664): a falsy `entry_price` reverts to idle; the drawdown branch logs
the structured `xmr_drawdown_reset` event (with `unrealized_loss_pct`)
before the protective sell. -/
def hold_step (env : Env) (s : State) : TickOut State :=
  match s.entry_price with
  | none => ⟨{ s with mode := "idle" }, true, [], [], false⟩
  | some e =>
    if e = 0 then ⟨{ s with mode := "idle" }, true, [], [], false⟩
    else
      let gain := pct e env.price
      if gain ≤ DRAWDOWN_RESET then
        let r := execute_sell "drawdown_reset" env s
        ⟨r.state, true, r.orders,
          { etype := "xmr_drawdown_reset", price := some env.price,
            unrealized_loss_pct := some gain } :: r.events, r.attempted⟩
      else
        let s3 := if ¬ s.sell_approach_sent ∧ SELL_APPROACH ≤ gain
                  then { s with sell_approach_sent := true } else s
        if SELL_TARGET ≤ gain then
          let r := execute_sell "target" env s3
          ⟨r.state, true, r.orders, r.events, r.attempted⟩
        else ⟨s3, true, [], [], false⟩

/-- The RESET branch of the XMR `engine_tick`. -/
def reset_step (env : Env) (s : State) : TickOut State :=
  if pct_opt s.last_swing_high env.price ≤ BUY_PULLBACK then
    ⟨{ s with mode := "idle", buy_approach_sent := false },
      true, [], [], false⟩
  else ⟨s, true, [], [], false⟩

/-- `engine_tick` from kraken_xmr.py.  No exception escapes the mode
branches (the helpers catch them), so `save_state` is always reached. -/
def engine_tick (env : Env) (s0 : State) : TickOut State :=
  let s := track_swing_high env.price s0
  if s.mode = "idle" then idle_step env s
  else if s.mode = "hold" then hold_step env s
  else if s.mode = "reset" then reset_step env s
  else ⟨s, true, [], [], false⟩

end Xmr

namespace Sol

/-- Persisted state of kraken_sol.py (`DEFAULT_STATE` fields; kraken_sol.py
replicates the ETH worker's logic for SOL). -/
structure State where
  mode : String
  entry_price : Option ℚ
  last_swing_high : Option ℚ
  last_swing_low : Option ℚ
  buy_approach_sent : Bool
  sell_approach_sent : Bool
  entry_time : Option ℚ
  usd_slice : ℚ
  last_heartbeat : Option ℚ
deriving DecidableEq

/-- First-run state of the SOL worker. -/
def initState (slice_init : ℚ) : State :=
  { mode := "idle", entry_price := none, last_swing_high := none,
    last_swing_low := none, buy_approach_sent := false,
    sell_approach_sent := false, entry_time := none,
    usd_slice := slice_init, last_heartbeat := none }

/-- `ensure_hold_if_asset_present` from kraken_sol.py. -/
def ensure_hold_if_asset_present (s : State) (bal price : ℚ) : State :=
  if 0 < bal ∧ s.mode = "idle" then
    let s1 : State := { s with mode := "hold", sell_approach_sent := false }
    if s1.last_swing_low = none then { s1 with last_swing_low := some price }
    else s1
  else s

/-- `update_swing_extremes` from kraken_sol.py. -/
def update_swing_extremes (s : State) (price : ℚ) : State :=
  let s1 := if s.last_swing_high = none
            then { s with last_swing_high := some price } else s
  let s2 := if s1.last_swing_low = none
            then { s1 with last_swing_low := some price } else s1
  let s3 := if s2.last_swing_high.getD price < price
            then { s2 with last_swing_high := some price,
                           buy_approach_sent := false } else s2
  if s3.mode = "hold" ∧ price < s3.last_swing_low.getD price
  then { s3 with last_swing_low := some price } else s3

/-- `maybe_send_heartbeat` from kraken_sol.py (state mutation only). -/
def maybe_send_heartbeat (env : Env) (s : State) : State :=
  if env.now - or_default s.last_heartbeat 0 <
      HEARTBEAT_INTERVAL_HOURS * 3600 then s
  else { s with last_heartbeat := some env.now }

/-- `execute_buy` from kraken_sol.py. -/
def execute_buy (env : Env) (s : State) : ExecOut State :=
  match env.balances with
  | none => ⟨s, false, true, [], [], false⟩
  | some (_, usd_bal) =>
    let slice_before := s.usd_slice
    let usd_avail := min slice_before usd_bal
    if usd_avail < MIN_USD_BALANCE then
      ⟨s, false, false, [], [], false⟩
    else
      let usd_to_spend := usd_avail
      let volume := round_to 8 (usd_to_spend / env.price)
      if env.order_ok then
        let s' : State :=
          { s with usd_slice := max 0 (slice_before - usd_to_spend),
                   entry_price := some env.price,
                   entry_time := some env.now,
                   mode := "hold",
                   sell_approach_sent := false,
                   last_swing_low := some env.price }
        ⟨s', true, false, [("buy", volume)],
          [{ etype := "sol_buy", price := some env.price,
             volume := some volume }], true⟩
      else ⟨s, false, true, [], [], true⟩

/-- `execute_sell` from kraken_sol.py. -/
def execute_sell (reason : String) (env : Env) (s : State) : ExecOut State :=
  match env.balances with
  | none => ⟨s, false, true, [], [], false⟩
  | some (sol_bal, _) =>
    let volume := round_to 8 (sol_bal * SELL_FRACTION)
    let notional := volume * env.price
    if notional < MIN_USD_BALANCE then
      ⟨s, false, false, [], [], false⟩
    else if env.order_ok then
      let s' : State :=
        { s with usd_slice := s.usd_slice + notional, mode := "reset",
                 sell_approach_sent := false }
      ⟨s', true, false, [("sell", volume)],
        [{ etype := "sol_sell_" ++ reason, price := some env.price,
           volume := some volume, notional := some notional }], true⟩
    else ⟨s, false, true, [], [], true⟩

/-- The IDLE branch of the SOL `engine_tick`. -/
def idle_step (env : Env) (s0 s : State) : TickOut State :=
  let s3 := if ¬ s.buy_approach_sent ∧
               pct_opt s.last_swing_high env.price ≤ BUY_APPROACH
            then { s with buy_approach_sent := true } else s
  if pct_opt s.last_swing_high env.price ≤ BUY_PULLBACK then
    commit s0 (execute_buy env s3)
  else ⟨s3, true, [], [], false⟩

/-- The HOLD branch of the SOL `engine_tick` (swing-low PnL anchor, as in
the ETH worker). -/
def hold_step (env : Env) (s0 s : State) : TickOut State :=
  let gain := pct (or_default s.last_swing_low env.price) env.price
  let s3 := if ¬ s.sell_approach_sent ∧ SELL_APPROACH ≤ gain ∧
               gain < SELL_TARGET
            then { s with sell_approach_sent := true } else s
  if gain ≤ DRAWDOWN_RESET then
    commit s0 (execute_sell "drawdown_reset" env s3)
  else if SELL_TARGET ≤ gain then
    commit s0 (execute_sell "target" env s3)
  else ⟨s3, true, [], [], false⟩

/-- The RESET branch of the SOL `engine_tick`. -/
def reset_step (env : Env) (s : State) : TickOut State :=
  if pct_opt s.last_swing_high env.price ≤ BUY_PULLBACK then
    ⟨{ s with mode := "idle", buy_approach_sent := false },
      true, [], [], false⟩
  else ⟨s, true, [], [], false⟩

/-- `engine_tick` from kraken_sol.py. -/
def engine_tick (env : Env) (s0 : State) : TickOut State :=
  match env.balances with
  | none => ⟨s0, false, [], [], false⟩
  | some (sol_bal, _usd_bal) =>
    let s := maybe_send_heartbeat env
      (update_swing_extremes
        (ensure_hold_if_asset_present s0 sol_bal env.price) env.price)
    if s.mode = "idle" then idle_step env s0 s
    else if s.mode = "hold" then hold_step env s0 s
    else if s.mode = "reset" then reset_step env s
    else ⟨s, true, [], [], false⟩

end Sol

namespace Xrp

/-- Persisted state of kraken_xrp.py (`DEFAULT_STATE` fields). -/
structure State where
  mode : String
  entry_price : Option ℚ
  last_swing_high : Option ℚ
  buy_approach_sent : Bool
  sell_approach_sent : Bool
  entry_time : Option ℚ
  usd_slice : ℚ
  last_heartbeat : Option ℚ
deriving DecidableEq

/-- First-run state of the XRP worker. -/
def initState (slice_init : ℚ) : State :=
  { mode := "idle", entry_price := none, last_swing_high := none,
    buy_approach_sent := false, sell_approach_sent := false,
    entry_time := none, usd_slice := slice_init, last_heartbeat := none }

/-- `detect_initial_position` from kraken_xrp.py: an existing XRP balance
in mode idle is adopted as a held position; unlike the ETH/SOL variants,
`entry_price` is set to the current price when previously unset. -/
def detect_initial_position (s : State) (asset_balance price : ℚ) : State :=
  if 0 < asset_balance ∧ s.mode = "idle" then
    let s1 := if s.entry_price = none
              then { s with entry_price := some price } else s
    { s1 with mode := "hold", sell_approach_sent := false }
  else s

/-- `maybe_send_heartbeat` from kraken_xrp.py (state mutation only). -/
def maybe_send_heartbeat (env : Env) (s : State) : State :=
  if env.now - or_default s.last_heartbeat 0 <
      HEARTBEAT_INTERVAL_HOURS * 3600 then s
  else { s with last_heartbeat := some env.now }

/-- `execute_buy` from kraken_xrp.py (errors are not caught). -/
def execute_buy (env : Env) (s : State) : ExecOut State :=
  match env.balances with
  | none => ⟨s, false, true, [], [], false⟩
  | some (_, usd_bal) =>
    let slice_before := s.usd_slice
    let usd_avail := min slice_before usd_bal
    if usd_avail < MIN_USD_BALANCE then
      ⟨s, false, false, [], [], false⟩
    else
      let usd_to_spend := usd_avail
      let volume := round_to 8 (usd_to_spend / env.price)
      if env.order_ok then
        let s' : State :=
          { s with usd_slice := max 0 (slice_before - usd_to_spend),
                   entry_price := some env.price,
                   entry_time := some env.now,
                   mode := "hold",
                   sell_approach_sent := false }
        ⟨s', true, false, [("buy", volume)],
          [{ etype := "xrp_buy", price := some env.price,
             volume := some volume }], true⟩
      else ⟨s, false, true, [], [], true⟩

/-- `execute_sell` from kraken_xrp.py (`entry_price` not cleared,
`sell_approach_sent` not reset). -/
def execute_sell (reason : String) (env : Env) (s : State) : ExecOut State :=
  match env.balances with
  | none => ⟨s, false, true, [], [], false⟩
  | some (xrp_bal, _) =>
    let volume := round_to 8 (xrp_bal * SELL_FRACTION)
    let notional := volume * env.price
    if notional < MIN_USD_BALANCE then
      ⟨s, false, false, [], [], false⟩
    else if env.order_ok then
      let s' : State :=
        { s with usd_slice := s.usd_slice + notional, mode := "reset" }
      ⟨s', true, false, [("sell", volume)],
        [{ etype := "xrp_sell_" ++ reason, price := some env.price,
           volume := some volume, notional := some notional }], true⟩
    else ⟨s, false, true, [], [], true⟩

/-- Swing-high tracking at the top of the XRP `engine_tick`. -/
def track_swing_high (price : ℚ) (s : State) : State :=
  let s1 := if s.last_swing_high = none
            then { s with last_swing_high := some price } else s
  if s1.last_swing_high.getD price < price
  then { s1 with last_swing_high := some price, buy_approach_sent := false }
  else s1

/-- The IDLE branch of the XRP `engine_tick`. -/
def idle_step (env : Env) (s0 s : State) : TickOut State :=
  let s3 := if ¬ s.buy_approach_sent ∧
               pct_opt s.last_swing_high env.price ≤ BUY_APPROACH
            then { s with buy_approach_sent := true } else s
  if pct_opt s.last_swing_high env.price ≤ BUY_PULLBACK then
    commit s0 (execute_buy env s3)
  else ⟨s3, true, [], [], false⟩

/-- The HOLD branch of the XRP `engine_tick` (entry-price PnL anchor). -/
def hold_step (env : Env) (s0 s : State) : TickOut State :=
  let gain := pct_opt s.entry_price env.price
  if gain ≤ DRAWDOWN_RESET then
    commit s0 (execute_sell "drawdown_reset" env s)
  else if SELL_TARGET ≤ gain then
    commit s0 (execute_sell "target" env s)
  else ⟨s, true, [], [], false⟩

/-- The RESET branch of the XRP `engine_tick`. -/
def reset_step (env : Env) (s : State) : TickOut State :=
  if pct_opt s.last_swing_high env.price ≤ BUY_PULLBACK then
    ⟨{ s with mode := "idle", buy_approach_sent := false },
      true, [], [], false⟩
  else ⟨s, true, [], [], false⟩

/-- `engine_tick` from kraken_xrp.py: the top-level balance fetch raises
out of the tick; then swing-high update, `detect_initial_position`,
heartbeat, and the mode dispatch. -/
def engine_tick (env : Env) (s0 : State) : TickOut State :=
  match env.balances with
  | none => ⟨s0, false, [], [], false⟩
  | some (xrp_bal, _) =>
    let s := maybe_send_heartbeat env
      (detect_initial_position (track_swing_high env.price s0)
        xrp_bal env.price)
    if s.mode = "idle" then idle_step env s0 s
    else if s.mode = "hold" then hold_step env s0 s
    else if s.mode = "reset" then reset_step env s
    else ⟨s, true, [], [], false⟩

end Xrp

/-! ### Lemmas: decimal print/parse round trip -/

lemma digitChar_toNat {d : ℕ} (h : d < 10) : (digitChar d).toNat = 48 + d := by
  interval_cases d <;> decide

lemma digitChar_isDigit {d : ℕ} (h : d < 10) : (digitChar d).isDigit = true := by
  interval_cases d <;> decide

lemma toDecimalAux_digits :
    ∀ fuel n : ℕ, ∀ c ∈ toDecimalAux fuel n, c.isDigit = true := by
  intro fuel
  induction fuel with
  | zero => intro n c hc; simp [toDecimalAux] at hc
  | succ fuel ih =>
    intro n c hc
    rw [toDecimalAux] at hc
    by_cases hn : n = 0
    · simp [hn] at hc
    · simp only [hn, if_false, List.mem_append, List.mem_singleton] at hc
      rcases hc with hc | hc
      · exact ih _ c hc
      · subst hc
        exact digitChar_isDigit (Nat.mod_lt _ (by norm_num))

lemma toDecimalAux_foldl :
    ∀ fuel n, n ≤ fuel → ∀ a : ℕ,
      (toDecimalAux fuel n).foldl (fun a c => 10 * a + (c.toNat - 48)) a
        = a * 10 ^ (toDecimalAux fuel n).length + n := by
  intro fuel
  induction fuel with
  | zero =>
    intro n hn a
    interval_cases n
    simp [toDecimalAux]
  | succ fuel ih =>
    intro n hn a
    rw [toDecimalAux]
    by_cases hn0 : n = 0
    · simp [hn0]
    · rw [if_neg hn0, List.foldl_append, List.length_append]
      have hdiv : n / 10 ≤ fuel := by
        have := Nat.div_lt_self (Nat.pos_of_ne_zero hn0) (by norm_num : 1 < 10)
        omega
      rw [ih (n / 10) hdiv a]
      have hd : (digitChar (n % 10)).toNat = 48 + n % 10 :=
        digitChar_toNat (Nat.mod_lt _ (by norm_num))
      simp only [List.foldl_cons, List.foldl_nil, List.length_singleton, hd]
      have hmod : 10 * (n / 10) + n % 10 = n := Nat.div_add_mod n 10
      calc 10 * (a * 10 ^ (toDecimalAux fuel (n / 10)).length + n / 10) +
              (48 + n % 10 - 48)
          = a * (10 ^ (toDecimalAux fuel (n / 10)).length * 10) +
              (10 * (n / 10) + n % 10) := by ring_nf; omega
        _ = a * 10 ^ ((toDecimalAux fuel (n / 10)).length + 1) + n := by
              rw [hmod, pow_succ]

lemma natToDecimal_toList (n : ℕ) (h : n ≠ 0) :
    (natToDecimal n).toList = toDecimalAux (n + 1) n := by
  rw [natToDecimal, if_neg h]
  rfl

lemma natToDecimal_digits (n : ℕ) :
    ∀ c ∈ (natToDecimal n).toList, c.isDigit = true := by
  by_cases h : n = 0
  · subst h; decide
  · rw [natToDecimal_toList n h]
    exact toDecimalAux_digits _ _

lemma natToDecimal_toList_ne_nil (n : ℕ) : (natToDecimal n).toList ≠ [] := by
  by_cases h : n = 0
  · subst h; decide
  · rw [natToDecimal_toList n h, toDecimalAux, if_neg h]
    simp

lemma natToDecimal_ne_empty (n : ℕ) : natToDecimal n ≠ "" := by
  intro he
  exact natToDecimal_toList_ne_nil n (by rw [he]; rfl)

lemma digitsVal?_natToDecimal (n : ℕ) :
    digitsVal? (natToDecimal n).toList = some n := by
  by_cases h : n = 0
  · subst h; decide
  · rw [natToDecimal_toList n h, digitsVal?]
    have hall : (toDecimalAux (n + 1) n).all Char.isDigit = true :=
      List.all_eq_true.mpr fun c hc => toDecimalAux_digits _ _ c hc
    have hne : toDecimalAux (n + 1) n ≠ [] := by
      rw [toDecimalAux, if_neg h]; simp
    rw [if_pos ⟨hne, hall⟩]
    have := toDecimalAux_foldl (n + 1) n (by omega) 0
    simp only [zero_mul, zero_add] at this
    rw [this]

lemma isDigit_not_ws {c : Char} (h : c.isDigit = true) :
    c.isWhitespace = false := by
  cases hw : c.isWhitespace
  · rfl
  · exfalso
    have hw' := hw
    simp only [Char.isWhitespace, Bool.or_eq_true, decide_eq_true_eq] at hw'
    rcases hw' with ((h1 | h1) | h1) | h1 <;> subst h1 <;>
      exact absurd h (by decide)

lemma dropWhile_eq_self {p : Char → Bool} :
    ∀ l : List Char, (∀ c ∈ l, p c = false) → l.dropWhile p = l := by
  intro l h
  cases l with
  | nil => rfl
  | cons c t =>
    rw [List.dropWhile_cons, h c (by simp)]
    simp

lemma pystrip_of_digits (s : String) (h : ∀ c ∈ s.toList, c.isDigit = true) :
    pystrip s = s := by
  rw [pystrip]
  have h1 : ∀ c ∈ s.toList, Char.isWhitespace c = false :=
    fun c hc => isDigit_not_ws (h c hc)
  have h2 : ∀ c ∈ s.toList.reverse, Char.isWhitespace c = false := by
    intro c hc
    exact h1 c (List.mem_reverse.mp hc)
  rw [dropWhile_eq_self _ h1, dropWhile_eq_self _ h2, List.reverse_reverse]
  rfl

lemma pystrip_natToDecimal (n : ℕ) :
    pystrip (natToDecimal n) = natToDecimal n :=
  pystrip_of_digits _ (natToDecimal_digits n)

lemma python_int_natToDecimal (n : ℕ) :
    python_int (natToDecimal n) = some (n : ℤ) := by
  have hne := natToDecimal_toList_ne_nil n
  rcases hcs : (natToDecimal n).toList with _ | ⟨c, rest⟩
  · exact absurd hcs hne
  · have hd : c.isDigit = true :=
      natToDecimal_digits n c (by rw [hcs]; simp)
    have hc1 : ¬ (c = '-') := fun he => by subst he; exact absurd hd (by decide)
    have hc2 : ¬ (c = '+') := fun he => by subst he; exact absurd hd (by decide)
    simp only [python_int, hcs, if_neg hc1, if_neg hc2]
    rw [← hcs, digitsVal?_natToDecimal]
    rfl

/-! ### Lemmas: get_nonce behaviour on well-formed content -/

lemma get_nonce_num (n t : ℕ) :
    get_nonce (natToDecimal n) t
      = some (max t (n + 1), natToDecimal (max t (n + 1))) := by
  have htn : (max (t : ℤ) ((n : ℤ) + 1)).toNat = max t (n + 1) := by omega
  simp only [get_nonce, pystrip_natToDecimal,
    if_neg (natToDecimal_ne_empty n), python_int_natToDecimal, htn]

lemma get_nonce_empty (t : ℕ) :
    get_nonce "" t = some (max t 1, natToDecimal (max t 1)) := by
  have htn : (max (t : ℤ) (1 : ℤ)).toNat = max t 1 := by omega
  simp [get_nonce, show pystrip "" = "" from rfl, htn]

lemma nonce_trace_num :
    ∀ (ts : List ℕ) (n : ℕ), ∃ vs,
      nonce_trace (natToDecimal n) ts = some vs ∧
      List.Pairwise (· < ·) vs ∧ ∀ v ∈ vs, n < v := by
  intro ts
  induction ts with
  | nil => intro n; exact ⟨[], rfl, by simp, by simp⟩
  | cons t ts ih =>
    intro n
    obtain ⟨vs, hvs, hpw, hgt⟩ := ih (max t (n + 1))
    refine ⟨max t (n + 1) :: vs, ?_, ?_, ?_⟩
    · simp [nonce_trace, get_nonce_num, hvs]
    · exact List.pairwise_cons.mpr ⟨fun v hv => hgt v hv, hpw⟩
    · intro v hv
      rcases List.mem_cons.mp hv with h | h
      · omega
      · have := hgt v h; omega

/-- C1: for every starting sequence-file content (empty or a stored
non-negative integer n) and every wall-clock millisecond reading t,
`get_nonce` returns `max t (n + 1)` (with n = 0 for an empty file), which
is strictly greater than n, and persists exactly the returned value as the
new file content; consequently any finite sequence of non-overlapping
calls returns strictly increasing values with no repeats. -/
theorem c1_get_nonce_monotonic (n t : ℕ) (ts : List ℕ) :
    get_nonce (natToDecimal n) t
      = some (max t (n + 1), natToDecimal (max t (n + 1)))
    ∧ get_nonce "" t = some (max t 1, natToDecimal (max t 1))
    ∧ n < max t (n + 1)
    ∧ ∃ vs, nonce_trace (natToDecimal n) ts = some vs ∧
        List.Pairwise (· < ·) vs := by
  refine ⟨get_nonce_num n t, get_nonce_empty t, by omega, ?_⟩
  obtain ⟨vs, h1, h2, _⟩ := nonce_trace_num ts n
  exact ⟨vs, h1, h2⟩

/-- C6 counterexample: on corrupt (non-empty, non-integer) stored content
such as "abc", `get_nonce` fails (`int(data)` raises ValueError and
nothing catches it) instead of treating the value as absent — unlike on a
genuinely empty file, where it succeeds. -/
theorem c6_counterexample_corrupt_file_raises :
    get_nonce "abc" 5 = none ∧ get_nonce "" 5 = some (5, "5") :=
  ⟨by decide, by decide⟩

/-- C6 amended: if the stored file content is non-empty after stripping
and is not parseable as an integer, `get_nonce` raises (returns no value)
rather than defaulting the stored value to 0; only empty content is
treated as absent. -/
theorem c6_amended_corrupt_file_raises (s : String) (t : ℕ)
    (h1 : pystrip s ≠ "") (h2 : python_int (pystrip s) = none) :
    get_nonce s t = none := by
  simp [get_nonce, if_neg h1, h2]

/-- Witness for `c6_amended_corrupt_file_raises` at content "abc", t = 7. -/
theorem c6_amended_witness :
    pystrip "abc" ≠ "" ∧ python_int (pystrip "abc") = none ∧
      get_nonce "abc" 7 = none :=
  ⟨by decide, by decide,
    c6_amended_corrupt_file_raises "abc" 7 (by decide) (by decide)⟩

/-- C2 counterexample: with the shared nonce file holding 10 and the
clock at 5 ms, `k_private` signs nonce 5 (the raw clock), while a call to
the coordinator's `get_nonce` would have returned 11 — the signed nonce
is not a coordinator-issued value. -/
theorem c2_counterexample_nonce_not_from_coordinator :
    k_private_nonce 5 = 5 ∧
    get_nonce (natToDecimal 10) 5 = some (11, natToDecimal 11) ∧
    k_private_nonce 5 ≠ 11 :=
  ⟨rfl, by decide, by decide⟩

/-- C2 amended: the nonce `k_private` places in the signed body is the
wall-clock millisecond reading itself, independent of the coordinator:
whenever the coordinator's stored value n is at least the clock t, the
nonce the worker signs differs from the value `get_nonce` would issue. -/
theorem c2_amended_k_private_nonce_is_clock (t n : ℕ) (params : String)
    (h : t ≤ n) :
    k_private_nonce t = t ∧
    k_private_post t params = "nonce=" ++ natToDecimal t ++ "&" ++ params ∧
    get_nonce (natToDecimal n) t = some (n + 1, natToDecimal (n + 1)) ∧
    k_private_nonce t ≠ n + 1 := by
  refine ⟨rfl, rfl, ?_, by simp only [k_private_nonce]; omega⟩
  rw [get_nonce_num]
  have hm : max t (n + 1) = n + 1 := by omega
  rw [hm]

/-- Witness for `c2_amended_k_private_nonce_is_clock` at t = 5, n = 10. -/
theorem c2_amended_witness :
    (5 : ℕ) ≤ 10 ∧
    (k_private_nonce 5 = 5 ∧
     k_private_post 5 "pair=XBTUSD"
        = "nonce=" ++ natToDecimal 5 ++ "&" ++ "pair=XBTUSD" ∧
     get_nonce (natToDecimal 10) 5 = some (11, natToDecimal 11) ∧
     k_private_nonce 5 ≠ 11) :=
  ⟨by decide, c2_amended_k_private_nonce_is_clock 5 10 "pair=XBTUSD" (by decide)⟩

/-! ### Lemmas: rounding bounds -/

lemma round_half_even_le (x : ℚ) : (round_half_even x : ℚ) ≤ x + 1/2 := by
  simp only [round_half_even]
  have h0 : (⌊x⌋ : ℚ) ≤ x := Int.floor_le x
  have h1 : x < ⌊x⌋ + 1 := Int.lt_floor_add_one x
  split_ifs with ha hb hc <;> push_cast <;> linarith

lemma round_to_le (d : ℕ) (x : ℚ) :
    round_to d x ≤ x + 1 / (2 * 10 ^ d) := by
  rw [round_to]
  have h := round_half_even_le (x * 10 ^ d)
  have hp : (0 : ℚ) < 10 ^ d := by positivity
  rw [div_le_iff₀ hp]
  calc (round_half_even (x * 10 ^ d) : ℚ)
      ≤ x * 10 ^ d + 1/2 := h
    _ = (x + 1 / (2 * 10 ^ d)) * 10 ^ d := by field_simp; ring

/-- C4 counterexample: with cap 100, committed 89.9849 and 1000 available,
the allocator returns 10.02 (the remaining 10.0151 rounded to cents), and
89.9849 + 10.02 = 100.0049 > 100: rounding is applied after the min, so
the cap can be exceeded by a sub-cent amount. -/
theorem c4_counterexample_cap_exceeded_by_rounding :
    get_allocatable_usd "BTC" 1000 (899849 / 10000) = some (501 / 50) ∧
    (899849 / 10000 : ℚ) + 501 / 50 > 100 := by
  constructor
  · have h : pyupper "BTC" = "BTC" := by decide
    norm_num [get_allocatable_usd, ASSET_LIMITS_USD, MIN_TRADE_USD,
      round_to, round_half_even, List.lookup, h]
  · norm_num

/-- C4 amended: for every configured asset, the allocator's return value
exceeds the remaining headroom `max (cap - committed) 0` by at most half a
cent (the rounding-to-cents slack); in particular
`committed + r ≤ cap + 0.005` whenever `committed ≤ cap`. -/
theorem c4_amended_cap_within_half_cent (asset : String)
    (avail committed cap r : ℚ)
    (hcap : ASSET_LIMITS_USD.lookup (pyupper asset) = some cap)
    (hr : get_allocatable_usd asset avail committed = some r) :
    r ≤ max (cap - committed) 0 + 1 / 200 := by
  simp only [get_allocatable_usd, hcap] at hr
  have hmax0 : (0 : ℚ) ≤ max (cap - committed) 0 := le_max_right _ _
  split_ifs at hr with h1 h2
  · obtain rfl : (0 : ℚ) = r := Option.some.inj hr
    linarith
  · obtain rfl : (0 : ℚ) = r := Option.some.inj hr
    linarith
  · obtain rfl : round_to 2 (min (cap - committed) avail) = r :=
      Option.some.inj hr
    have hb := round_to_le 2 (min (cap - committed) avail)
    have hmin : min (cap - committed) avail ≤ cap - committed :=
      min_le_left _ _
    have hmaxl : cap - committed ≤ max (cap - committed) 0 := le_max_left _ _
    have h200 : (1 : ℚ) / (2 * 10 ^ 2) = 1 / 200 := by norm_num
    linarith [hb, h200.le]

/-- Witness for `c4_amended_cap_within_half_cent` at asset BTC,
avail = 1000, committed = 0 (cap 100, returned value 100). -/
theorem c4_amended_witness :
    ASSET_LIMITS_USD.lookup (pyupper "BTC") = some 100 ∧
    get_allocatable_usd "BTC" 1000 0 = some 100 ∧
    (100 : ℚ) ≤ max ((100 : ℚ) - 0) 0 + 1 / 200 := by
  have hcap : ASSET_LIMITS_USD.lookup (pyupper "BTC") = some 100 := by
    with_unfolding_all rfl
  have hval : get_allocatable_usd "BTC" 1000 0 = some 100 := by
    with_unfolding_all rfl
  exact ⟨hcap, hval,
    c4_amended_cap_within_half_cent "BTC" 1000 0 100 100 hcap hval⟩

/-- C5 counterexample: with cap 100, committed 0 and 9.996 available, the
computed amount 9.996 rounds to cents as 10.00, which is not below the
minimum (10.0) — yet the allocator returns 0, because the code compares
the unrounded amount against the minimum before rounding. -/
theorem c5_counterexample_compare_before_rounding :
    get_allocatable_usd "BTC" (2499 / 250) 0 = some 0 ∧
    round_to 2 (min ((100 : ℚ) - 0) (2499 / 250)) = 10 ∧
    ¬ (round_to 2 (min ((100 : ℚ) - 0) (2499 / 250)) < MIN_TRADE_USD) ∧
    (0 : ℚ) ≠ 10 := by
  have hmin : min ((100 : ℚ) - 0) (2499 / 250) = 2499 / 250 := by
    rw [min_eq_right]
    norm_num
  refine ⟨?_, ?_, ?_, by norm_num⟩
  · have h : pyupper "BTC" = "BTC" := by decide
    norm_num [get_allocatable_usd, ASSET_LIMITS_USD, MIN_TRADE_USD,
      List.lookup, h]
  · rw [hmin]; norm_num [round_to, round_half_even]
  · rw [hmin]; norm_num [round_to, round_half_even, MIN_TRADE_USD]

/-- C5 amended: for every configured asset, the allocator returns 0
exactly when the remaining headroom is non-positive or the unrounded
amount `min (cap - committed) avail` is below the configured minimum
(10.0); otherwise it returns that amount rounded to cents.  (The claim's
version — comparing the amount after rounding to cents — is refuted by
the counterexample.) -/
theorem c5_amended_min_floor_unrounded (asset : String)
    (avail committed cap : ℚ)
    (hcap : ASSET_LIMITS_USD.lookup (pyupper asset) = some cap) :
    (cap - committed ≤ 0 →
      get_allocatable_usd asset avail committed = some 0) ∧
    (0 < cap - committed → min (cap - committed) avail < MIN_TRADE_USD →
      get_allocatable_usd asset avail committed = some 0) ∧
    (0 < cap - committed → MIN_TRADE_USD ≤ min (cap - committed) avail →
      get_allocatable_usd asset avail committed
        = some (round_to 2 (min (cap - committed) avail))) := by
  refine ⟨fun h1 => ?_, fun h1 h2 => ?_, fun h1 h2 => ?_⟩
  · simp only [get_allocatable_usd, hcap, if_pos h1]
  · simp only [get_allocatable_usd, hcap]
    rw [if_neg (by linarith), if_pos h2]
  · simp only [get_allocatable_usd, hcap]
    rw [if_neg (by linarith), if_neg (by linarith)]

/-- Witness for `c5_amended_min_floor_unrounded` at asset BTC (cap 100):
committed 100 gives 0; avail 5 gives 0; avail 1000 gives 100. -/
theorem c5_amended_witness :
    ASSET_LIMITS_USD.lookup (pyupper "BTC") = some 100 ∧
    ((100 : ℚ) - 100 ≤ 0 → get_allocatable_usd "BTC" 7 100 = some 0) ∧
    (0 < (100 : ℚ) - 0 → min ((100 : ℚ) - 0) 5 < MIN_TRADE_USD →
      get_allocatable_usd "BTC" 5 0 = some 0) := by
  have hcap : ASSET_LIMITS_USD.lookup (pyupper "BTC") = some 100 := by
    with_unfolding_all rfl
  exact ⟨hcap, (c5_amended_min_floor_unrounded "BTC" 7 100 100 hcap).1,
    (c5_amended_min_floor_unrounded "BTC" 5 0 100 hcap).2.1⟩

/-! ### Lemmas: the BTC worker's hold/entry invariant -/

lemma btc_track_mode (p : ℚ) (s : Btc.State) :
    (Btc.track_swing_high p s).mode = s.mode := by
  simp only [Btc.track_swing_high]
  split_ifs <;> rfl

lemma btc_track_entry (p : ℚ) (s : Btc.State) :
    (Btc.track_swing_high p s).entry_price = s.entry_price := by
  simp only [Btc.track_swing_high]
  split_ifs <;> rfl

lemma btc_buy_inv (env : Env) (s : Btc.State) (h : Btc.entry_inv s) :
    Btc.entry_inv (Btc.execute_buy env s).state := by
  rcases hb : env.balances with _ | ⟨bb, ub⟩ <;>
    simp only [Btc.execute_buy, hb]
  · exact h
  · split_ifs
    · exact h
    · intro _; simp
    · exact h

lemma btc_sell_inv (reason : String) (env : Env) (s : Btc.State)
    (h : Btc.entry_inv s) :
    Btc.entry_inv (Btc.execute_sell reason env s).state := by
  rcases hb : env.balances with _ | ⟨bb, ub⟩ <;>
    simp only [Btc.execute_sell, hb]
  · exact h
  · split_ifs
    · exact h
    · intro hm; simp at hm
    · exact h

lemma btc_commit_inv (s0 : Btc.State) (r : ExecOut Btc.State)
    (h0 : Btc.entry_inv s0) (hr : Btc.entry_inv r.state) :
    Btc.entry_inv (commit s0 r).state := by
  rw [commit]
  split_ifs <;> [exact h0; exact hr]

lemma btc_idle_step_inv (env : Env) (s0 s : Btc.State)
    (h0 : Btc.entry_inv s0) (h : Btc.entry_inv s) :
    Btc.entry_inv (Btc.idle_step env s0 s).state := by
  simp only [Btc.idle_step]
  split_ifs <;> first
    | exact btc_commit_inv _ _ h0 (btc_buy_inv env _ fun hm => h hm)
    | exact fun hm => h hm

lemma btc_hold_step_inv (env : Env) (s0 s : Btc.State)
    (h0 : Btc.entry_inv s0) (h : Btc.entry_inv s) :
    Btc.entry_inv (Btc.hold_step env s0 s).state := by
  simp only [Btc.hold_step]
  split_ifs
  · exact btc_commit_inv _ _ h0 (btc_sell_inv "drawdown_reset" env s h)
  · exact btc_commit_inv _ _ h0 (btc_sell_inv "target" env s h)
  · exact h

lemma btc_reset_step_inv (env : Env) (s : Btc.State)
    (h : Btc.entry_inv s) :
    Btc.entry_inv (Btc.reset_step env s).state := by
  simp only [Btc.reset_step]
  split_ifs
  · intro hm; simp at hm
  · exact h

lemma btc_tick_inv (env : Env) (s : Btc.State) (h : Btc.entry_inv s) :
    Btc.entry_inv (Btc.engine_tick env s).state := by
  have htrack : Btc.entry_inv (Btc.track_swing_high env.price s) := by
    intro hm
    rw [btc_track_entry]
    exact h (by rw [← btc_track_mode env.price s]; exact hm)
  simp only [Btc.engine_tick]
  split_ifs
  · exact btc_idle_step_inv env s _ h htrack
  · exact btc_hold_step_inv env s _ h htrack
  · exact btc_reset_step_inv env _ htrack
  · exact htrack

/-- C3 counterexample: one tick of the ETH worker from its first-run
state, with a positive ETH balance, ends in mode "hold" with
`entry_price` still null (the asset-in-hand adoption does not set it), so
"entry_price is non-null iff mode = hold" fails after a tick from a
reachable state. -/
theorem c3_counterexample_eth_hold_without_entry :
    (Eth.engine_tick ⟨100, 0, some (2, 0), true⟩
        (Eth.initState 0)).state.mode = "hold" ∧
    (Eth.engine_tick ⟨100, 0, some (2, 0), true⟩
        (Eth.initState 0)).state.entry_price = none ∧
    ¬ (((Eth.engine_tick ⟨100, 0, some (2, 0), true⟩
          (Eth.initState 0)).state.entry_price ≠ none) ↔
        (Eth.engine_tick ⟨100, 0, some (2, 0), true⟩
          (Eth.initState 0)).state.mode = "hold") := by
  have h1 : (Eth.engine_tick ⟨100, 0, some (2, 0), true⟩
      (Eth.initState 0)).state.mode = "hold" := by with_unfolding_all rfl
  have h2 : (Eth.engine_tick ⟨100, 0, some (2, 0), true⟩
      (Eth.initState 0)).state.entry_price = none := by with_unfolding_all rfl
  exact ⟨h1, h2, fun hiff => (hiff.mpr h1) h2⟩

/-- C3 amended: the implication that does hold for the BTC worker: after
every tick from any reachable state, mode "hold" implies `entry_price` is
non-null.  (The converse fails — sells move to "reset" without clearing
`entry_price` — and the ETH/SOL asset-adoption path enters "hold" with
`entry_price` null, as the counterexample shows.) -/
theorem c3_amended_btc_hold_has_entry (s : Btc.State)
    (hreach : Btc.Reachable s) (hmode : s.mode = "hold") :
    s.entry_price ≠ none := by
  revert hmode
  induction hreach with
  | init slice_init =>
    intro hmode
    exact absurd hmode (by simp [Btc.initState])
  | step env hr ih => exact btc_tick_inv env _ ih

/-- Witness for `c3_amended_btc_hold_has_entry` at the state reached from
the first-run state (slice 50) by a tick at price 100 followed by a tick
at price 96 (a −4% pullback that buys): that state is in mode "hold" and
has `entry_price` set. -/
theorem c3_amended_witness :
    (Btc.engine_tick ⟨96, 0, some (0, 80), true⟩
      (Btc.engine_tick ⟨100, 0, some (0, 80), true⟩
        (Btc.initState 50)).state).state.mode = "hold" ∧
    (Btc.engine_tick ⟨96, 0, some (0, 80), true⟩
      (Btc.engine_tick ⟨100, 0, some (0, 80), true⟩
        (Btc.initState 50)).state).state.entry_price ≠ none := by
  have hm : (Btc.engine_tick ⟨96, 0, some (0, 80), true⟩
      (Btc.engine_tick ⟨100, 0, some (0, 80), true⟩
        (Btc.initState 50)).state).state.mode = "hold" := by
    with_unfolding_all rfl
  exact ⟨hm, c3_amended_btc_hold_has_entry _
    (Btc.Reachable.step ⟨96, 0, some (0, 80), true⟩
      (Btc.Reachable.step ⟨100, 0, some (0, 80), true⟩
        (Btc.Reachable.init 50))) hm⟩

/-- C7: from mode "idle" with stored swing high 100, price 96.9 (a −3.1%
pullback, past the −3% trigger), slice (granted amount) \$50 and live USD
balance \$80, one BTC tick buys: it spends min(50, 80) = \$50 (slice drops
to 0), submits a market buy of 50/96.9 rounded to 8 decimals
(= 0.51599587), transitions to "hold" and sets entry_price = 96.9. -/
theorem c7_btc_buy_scenario (env : Env) (s : Btc.State) (b : ℚ)
    (hm : s.mode = "idle") (hsw : s.last_swing_high = some 100)
    (hsl : s.usd_slice = 50) (hp : env.price = 969/10)
    (hb : env.balances = some (b, 80)) (hok : env.order_ok = true) :
    (Btc.engine_tick env s).state.mode = "hold" ∧
    (Btc.engine_tick env s).state.entry_price = some (969/10) ∧
    (Btc.engine_tick env s).state.usd_slice = 0 ∧
    (Btc.engine_tick env s).orders = [("buy", round_to 8 (50 / (969/10)))] ∧
    round_to 8 (50 / (969/10)) = 51599587 / 100000000 := by
  obtain ⟨p, now, bal, ok⟩ := env
  simp only at hp hb hok
  subst hp hb hok
  obtain ⟨mo, ep, sw, bas, sas, et, sl⟩ := s
  simp only at hm hsw hsl
  subst hm hsw hsl
  have hround : round_to 8 ((50 : ℚ) / (969/10)) = 51599587 / 100000000 := by
    norm_num [round_to, round_half_even]
  refine ⟨?_, ?_, ?_, ?_, hround⟩ <;>
    · cases bas <;>
      · simp [Btc.engine_tick, Btc.track_swing_high, Btc.idle_step,
          Btc.execute_buy, commit, pct_opt, pct, BUY_APPROACH, BUY_PULLBACK,
          MIN_USD_BALANCE, min_def]
        norm_num

/-- Witness for `c7_btc_buy_scenario` at the concrete idle state with
swing high 100 and slice 50, price 96.9, balances (0 BTC, \$80 USD). -/
theorem c7_witness :
    (Btc.engine_tick ⟨969/10, 0, some (0, 80), true⟩
        ⟨"idle", none, some 100, false, false, none, 50⟩).state.mode
      = "hold" ∧
    (Btc.engine_tick ⟨969/10, 0, some (0, 80), true⟩
        ⟨"idle", none, some 100, false, false, none, 50⟩).state.entry_price
      = some (969/10) ∧
    (Btc.engine_tick ⟨969/10, 0, some (0, 80), true⟩
        ⟨"idle", none, some 100, false, false, none, 50⟩).state.usd_slice
      = 0 ∧
    (Btc.engine_tick ⟨969/10, 0, some (0, 80), true⟩
        ⟨"idle", none, some 100, false, false, none, 50⟩).orders
      = [("buy", round_to 8 (50 / (969/10)))] ∧
    round_to 8 (50 / (969/10)) = 51599587 / 100000000 :=
  c7_btc_buy_scenario ⟨969/10, 0, some (0, 80), true⟩
    ⟨"idle", none, some 100, false, false, none, 50⟩ 0 rfl rfl rfl rfl rfl rfl

/-! ### Lemmas: XMR swing tracking preserves mode and entry -/

lemma xmr_track_mode (p : ℚ) (s : Xmr.State) :
    (Xmr.track_swing_high p s).mode = s.mode := by
  simp only [Xmr.track_swing_high]
  split_ifs <;> rfl

lemma xmr_track_entry (p : ℚ) (s : Xmr.State) :
    (Xmr.track_swing_high p s).entry_price = s.entry_price := by
  simp only [Xmr.track_swing_high]
  split_ifs <;> rfl

/-- C8 amended (XMR): from mode "hold" with entry_price 100 and price 87
(gain −13% ≤ −12%), given enough balance for the 25% sell to clear the
\$10 minimum and a successful order, one XMR tick sells 25% of holdings,
moves to "reset", and appends exactly one drawdown_reset event, whose
`unrealized_loss_pct` is −13. -/
theorem c8_amended_xmr_drawdown_reset (env : Env) (s : Xmr.State) (xb u : ℚ)
    (hm : s.mode = "hold") (he : s.entry_price = some 100)
    (hp : env.price = 87) (hb : env.balances = some (xb, u))
    (hok : env.order_ok = true)
    (hvol : MIN_USD_BALANCE ≤ round_to 8 (xb * SELL_FRACTION) * 87) :
    (Xmr.engine_tick env s).state.mode = "reset" ∧
    (Xmr.engine_tick env s).orders
      = [("sell", round_to 8 (xb * SELL_FRACTION))] ∧
    (Xmr.engine_tick env s).events
      = [{ etype := "xmr_drawdown_reset", price := some 87,
           unrealized_loss_pct := some (pct 100 87) },
         { etype := "xmr_sell_executed_drawdown_reset", price := some 87,
           volume := some (round_to 8 (xb * SELL_FRACTION)),
           notional := some (round_to 8 (xb * SELL_FRACTION) * 87) }] ∧
    ((Xmr.engine_tick env s).events.filter
        (fun e => e.etype = "xmr_drawdown_reset")).length = 1 ∧
    pct 100 87 = -13 := by
  obtain ⟨p, now, bal, ok⟩ := env
  simp only at hp hb hok
  subst hp hb hok
  have hgain : pct (100 : ℚ) 87 = -13 := by norm_num [pct]
  have hm2 : (Xmr.track_swing_high 87 s).mode = "hold" := by
    rw [xmr_track_mode, hm]
  have he2 : (Xmr.track_swing_high 87 s).entry_price = some 100 := by
    rw [xmr_track_entry, he]
  have htick : Xmr.engine_tick ⟨87, now, some (xb, u), true⟩ s
      = Xmr.hold_step ⟨87, now, some (xb, u), true⟩
          (Xmr.track_swing_high 87 s) := by
    simp only [Xmr.engine_tick]
    rw [if_neg (by rw [hm2]; decide), if_pos hm2]
  have hv0 : 0 < round_to 8 (xb * SELL_FRACTION) := by
    by_contra hle
    push_neg at hle
    rw [MIN_USD_BALANCE] at hvol
    nlinarith
  have hcond : ¬ (round_to 8 (xb * SELL_FRACTION) ≤ 0 ∨
      round_to 8 (xb * SELL_FRACTION) * 87 < MIN_USD_BALANCE) := by
    push_neg
    exact ⟨hv0, hvol⟩
  have hsell : Xmr.execute_sell "drawdown_reset" ⟨87, now, some (xb, u), true⟩
      (Xmr.track_swing_high 87 s)
      = ⟨{ Xmr.track_swing_high 87 s with
            usd_slice := (Xmr.track_swing_high 87 s).usd_slice +
              round_to 8 (xb * SELL_FRACTION) * 87,
            mode := "reset" }, true, false,
          [("sell", round_to 8 (xb * SELL_FRACTION))],
          [{ etype := "xmr_sell_executed_drawdown_reset", price := some 87,
             volume := some (round_to 8 (xb * SELL_FRACTION)),
             notional := some (round_to 8 (xb * SELL_FRACTION) * 87) }],
          true⟩ := by
    simp only [Xmr.execute_sell, if_neg hcond]
    rfl
  have hddgain : pct (100 : ℚ) 87 ≤ DRAWDOWN_RESET := by
    rw [hgain, DRAWDOWN_RESET]
    norm_num
  rw [htick, Xmr.hold_step, he2]
  simp only [if_neg (show (100 : ℚ) ≠ 0 by norm_num), if_pos hddgain, hsell]
  refine ⟨by trivial, by trivial, by trivial, ?_, hgain⟩
  have hne : ("xmr_sell_executed_drawdown_reset" : String)
      ≠ "xmr_drawdown_reset" := by decide
  simp [List.filter, hne]

/-- Witness for `c8_amended_xmr_drawdown_reset`: XMR balance 1, price 87,
entry 100 (sell volume 0.25, notional \$21.75 ≥ \$10). -/
theorem c8_amended_witness :
    (Xmr.engine_tick ⟨87, 0, some (1, 0), true⟩
        ⟨"hold", some 100, some 100, false, false, none, 0⟩).state.mode
      = "reset" ∧
    (Xmr.engine_tick ⟨87, 0, some (1, 0), true⟩
        ⟨"hold", some 100, some 100, false, false, none, 0⟩).orders
      = [("sell", round_to 8 (1 * SELL_FRACTION))] ∧
    (Xmr.engine_tick ⟨87, 0, some (1, 0), true⟩
        ⟨"hold", some 100, some 100, false, false, none, 0⟩).events
      = [{ etype := "xmr_drawdown_reset", price := some 87,
           unrealized_loss_pct := some (pct 100 87) },
         { etype := "xmr_sell_executed_drawdown_reset", price := some 87,
           volume := some (round_to 8 (1 * SELL_FRACTION)),
           notional := some (round_to 8 (1 * SELL_FRACTION) * 87) }] ∧
    (((Xmr.engine_tick ⟨87, 0, some (1, 0), true⟩
        ⟨"hold", some 100, some 100, false, false, none, 0⟩).events.filter
          (fun e => e.etype = "xmr_drawdown_reset")).length = 1) ∧
    pct 100 87 = -13 :=
  c8_amended_xmr_drawdown_reset ⟨87, 0, some (1, 0), true⟩
    ⟨"hold", some 100, some 100, false, false, none, 0⟩ 1 0
    rfl rfl rfl rfl rfl
    (by norm_num [round_to, round_half_even, MIN_USD_BALANCE, SELL_FRACTION])

/-- C8 counterexample (ETH): the same scenario — mode "hold", entry_price
100, price 87, ample balance, orders succeeding — triggers nothing in the
ETH worker: its PnL anchor is the swing low, which the tick first walks
down to 87, making the measured gain 0; no sell, no mode change, no event
is appended.  The claim's prediction (sell, reset, one drawdown_reset
event) fails for this cited worker. -/
theorem c8_counterexample_eth_no_reset :
    (Eth.engine_tick ⟨87, 0, some (10, 0), true⟩
        ⟨"hold", some 100, some 100, some 100, false, false, none, 0,
          some 0⟩).state.mode = "hold" ∧
    (Eth.engine_tick ⟨87, 0, some (10, 0), true⟩
        ⟨"hold", some 100, some 100, some 100, false, false, none, 0,
          some 0⟩).orders = [] ∧
    (Eth.engine_tick ⟨87, 0, some (10, 0), true⟩
        ⟨"hold", some 100, some 100, some 100, false, false, none, 0,
          some 0⟩).events = [] ∧
    ("hold" : String) ≠ "reset" := by
  refine ⟨?_, ?_, ?_, by decide⟩ <;> with_unfolding_all rfl

lemma xmr_track_slice (p : ℚ) (s : Xmr.State) :
    (Xmr.track_swing_high p s).usd_slice = s.usd_slice := by
  simp only [Xmr.track_swing_high]
  split_ifs <;> rfl

lemma btc_buy_fail_orders (env : Env) (s : Btc.State)
    (hfail : env.order_ok = false) :
    (Btc.execute_buy env s).orders = [] := by
  rcases hb : env.balances with _ | ⟨bb, ub⟩ <;>
    simp only [Btc.execute_buy, hb, hfail] <;> split_ifs <;> simp_all

lemma btc_buy_fail_raised (env : Env) (s : Btc.State)
    (hfail : env.order_ok = false)
    (hatt : (Btc.execute_buy env s).attempted = true) :
    (Btc.execute_buy env s).raised = true := by
  rcases hb : env.balances with _ | ⟨bb, ub⟩ <;>
    simp only [Btc.execute_buy, hb, hfail] at hatt ⊢ <;>
    split_ifs at hatt ⊢ <;> simp_all

lemma btc_sell_fail_orders (reason : String) (env : Env) (s : Btc.State)
    (hfail : env.order_ok = false) :
    (Btc.execute_sell reason env s).orders = [] := by
  rcases hb : env.balances with _ | ⟨bb, ub⟩ <;>
    simp only [Btc.execute_sell, hb, hfail] <;> split_ifs <;> simp_all

lemma btc_sell_fail_raised (reason : String) (env : Env) (s : Btc.State)
    (hfail : env.order_ok = false)
    (hatt : (Btc.execute_sell reason env s).attempted = true) :
    (Btc.execute_sell reason env s).raised = true := by
  rcases hb : env.balances with _ | ⟨bb, ub⟩ <;>
    simp only [Btc.execute_sell, hb, hfail] at hatt ⊢ <;>
    split_ifs at hatt ⊢ <;> simp_all

lemma btc_commit_fail (s0 : Btc.State) (r : ExecOut Btc.State)
    (ho : r.orders = []) (himp : r.attempted = true → r.raised = true)
    (hatt : (commit s0 r).attempted = true) :
    (commit s0 r).orders = [] ∧ (commit s0 r).state = s0 := by
  rw [commit] at hatt ⊢
  split_ifs at hatt ⊢ with hr
  · exact ⟨ho, rfl⟩
  · exact absurd (himp hatt) (by simpa using hr)

lemma btc_order_fail (env : Env) (sb : Btc.State)
    (hfail : env.order_ok = false)
    (hatt : (Btc.engine_tick env sb).attempted = true) :
    (Btc.engine_tick env sb).orders = [] ∧
    (Btc.engine_tick env sb).state = sb := by
  simp only [Btc.engine_tick] at hatt ⊢
  split_ifs at hatt ⊢ with h1 h2 h3
  · simp only [Btc.idle_step] at hatt ⊢
    split_ifs at hatt ⊢ <;>
      exact btc_commit_fail sb _ (btc_buy_fail_orders env _ hfail)
        (btc_buy_fail_raised env _ hfail) hatt
  · simp only [Btc.hold_step] at hatt ⊢
    split_ifs at hatt ⊢ <;>
      exact btc_commit_fail sb _ (btc_sell_fail_orders _ env _ hfail)
        (btc_sell_fail_raised _ env _ hfail) hatt
  · simp only [Btc.reset_step] at hatt
    split_ifs at hatt

lemma xmr_buy_fail_orders (env : Env) (s : Xmr.State)
    (hfail : env.order_ok = false) :
    (Xmr.execute_buy env s).orders = [] := by
  rcases hb : env.balances with _ | ⟨bb, ub⟩ <;>
    simp only [Xmr.execute_buy, hb, hfail] <;> split_ifs <;> simp_all

lemma xmr_buy_fail_state (env : Env) (s : Xmr.State)
    (hfail : env.order_ok = false) :
    (Xmr.execute_buy env s).state = s := by
  rcases hb : env.balances with _ | ⟨bb, ub⟩ <;>
    simp only [Xmr.execute_buy, hb, hfail] <;> split_ifs <;> simp_all

lemma xmr_buy_fail_exec (env : Env) (s : Xmr.State)
    (hfail : env.order_ok = false) :
    (Xmr.execute_buy env s).executed = false := by
  rcases hb : env.balances with _ | ⟨bb, ub⟩ <;>
    simp only [Xmr.execute_buy, hb, hfail] <;> split_ifs <;> simp_all

lemma xmr_sell_fail_orders (reason : String) (env : Env) (s : Xmr.State)
    (hfail : env.order_ok = false) :
    (Xmr.execute_sell reason env s).orders = [] := by
  rcases hb : env.balances with _ | ⟨bb, ub⟩ <;>
    simp only [Xmr.execute_sell, hb, hfail] <;> split_ifs <;> simp_all

lemma xmr_sell_fail_state (reason : String) (env : Env) (s : Xmr.State)
    (hfail : env.order_ok = false) :
    (Xmr.execute_sell reason env s).state = s := by
  rcases hb : env.balances with _ | ⟨bb, ub⟩ <;>
    simp only [Xmr.execute_sell, hb, hfail] <;> split_ifs <;> simp_all

lemma xmr_idle_fail (env : Env) (s : Xmr.State)
    (hfail : env.order_ok = false) (hm : s.mode = "idle") :
    (Xmr.idle_step env s).orders = [] ∧
    (Xmr.idle_step env s).state.mode = s.mode ∧
    (Xmr.idle_step env s).state.entry_price = s.entry_price ∧
    (Xmr.idle_step env s).state.usd_slice = s.usd_slice := by
  have hOrd : ∀ t, (Xmr.execute_buy env t).orders = [] :=
    fun t => xmr_buy_fail_orders env t hfail
  have hSt : ∀ t, (Xmr.execute_buy env t).state = t :=
    fun t => xmr_buy_fail_state env t hfail
  have hEx : ∀ t, (Xmr.execute_buy env t).executed = false :=
    fun t => xmr_buy_fail_exec env t hfail
  simp only [Xmr.idle_step, hOrd, hSt, hEx, if_false]
  split_ifs <;> simp [hm]

lemma xmr_hold_fail (env : Env) (s : Xmr.State)
    (hfail : env.order_ok = false)
    (hatt : (Xmr.hold_step env s).attempted = true) :
    (Xmr.hold_step env s).orders = [] ∧
    (Xmr.hold_step env s).state.mode = s.mode ∧
    (Xmr.hold_step env s).state.entry_price = s.entry_price ∧
    (Xmr.hold_step env s).state.usd_slice = s.usd_slice := by
  have hOrd : ∀ r t, (Xmr.execute_sell r env t).orders = [] :=
    fun r t => xmr_sell_fail_orders r env t hfail
  have hSt : ∀ r t, (Xmr.execute_sell r env t).state = t :=
    fun r t => xmr_sell_fail_state r env t hfail
  rcases he : s.entry_price with _ | e <;>
    simp only [Xmr.hold_step, he, hOrd, hSt] at hatt ⊢
  · simp at hatt
  · split_ifs at hatt ⊢ <;> simp_all

lemma xmr_order_fail (env : Env) (sx : Xmr.State)
    (hfail : env.order_ok = false)
    (hatt : (Xmr.engine_tick env sx).attempted = true) :
    (Xmr.engine_tick env sx).orders = [] ∧
    (Xmr.engine_tick env sx).state.mode = sx.mode ∧
    (Xmr.engine_tick env sx).state.entry_price = sx.entry_price ∧
    (Xmr.engine_tick env sx).state.usd_slice = sx.usd_slice := by
  simp only [Xmr.engine_tick] at hatt ⊢
  split_ifs at hatt ⊢ with h1 h2 h3
  · obtain ⟨ho, hmo, hen, hsl⟩ :=
      xmr_idle_fail env (Xmr.track_swing_high env.price sx) hfail h1
    exact ⟨ho, by rw [hmo, xmr_track_mode], by rw [hen, xmr_track_entry],
      by rw [hsl, xmr_track_slice]⟩
  · obtain ⟨ho, hmo, hen, hsl⟩ :=
      xmr_hold_fail env (Xmr.track_swing_high env.price sx) hfail hatt
    exact ⟨ho, by rw [hmo, xmr_track_mode], by rw [hen, xmr_track_entry],
      by rw [hsl, xmr_track_slice]⟩
  · simp only [Xmr.reset_step] at hatt
    split_ifs at hatt

/-- C9: when order submission fails (the AddOrder call raises or returns
an error), the tick is not left partially applied.  In the BTC worker the
exception aborts the tick before `save_state`, so the persisted state is
exactly the pre-tick state; in the XMR worker the error is caught and the
persisted trading state (mode, entry_price, usd_slice) equals its
pre-tick value.  In both, no order was submitted. -/
theorem c9_order_failure_not_partially_applied (env : Env)
    (sb : Btc.State) (sx : Xmr.State) (hfail : env.order_ok = false) :
    ((Btc.engine_tick env sb).attempted = true →
      (Btc.engine_tick env sb).orders = [] ∧
      (Btc.engine_tick env sb).state = sb) ∧
    ((Xmr.engine_tick env sx).attempted = true →
      (Xmr.engine_tick env sx).orders = [] ∧
      (Xmr.engine_tick env sx).state.mode = sx.mode ∧
      (Xmr.engine_tick env sx).state.entry_price = sx.entry_price ∧
      (Xmr.engine_tick env sx).state.usd_slice = sx.usd_slice) :=
  ⟨fun hatt => btc_order_fail env sb hfail hatt,
   fun hatt => xmr_order_fail env sx hfail hatt⟩

/-- Witness for `c9_order_failure_not_partially_applied`: price 87 under
swing high 100 (buy triggered), slice 50, balances (1, \$80), order
failing — both workers attempt the buy, submit nothing, and leave mode,
entry_price and usd_slice untouched. -/
theorem c9_witness :
    (Btc.engine_tick ⟨87, 0, some (1, 80), false⟩
        ⟨"idle", none, some 100, false, false, none, 50⟩).attempted
      = true ∧
    (Xmr.engine_tick ⟨87, 0, some (1, 80), false⟩
        ⟨"idle", none, some 100, false, false, none, 50⟩).attempted
      = true ∧
    ((Btc.engine_tick ⟨87, 0, some (1, 80), false⟩
        ⟨"idle", none, some 100, false, false, none, 50⟩).orders = [] ∧
      (Btc.engine_tick ⟨87, 0, some (1, 80), false⟩
        ⟨"idle", none, some 100, false, false, none, 50⟩).state
        = ⟨"idle", none, some 100, false, false, none, 50⟩) ∧
    ((Xmr.engine_tick ⟨87, 0, some (1, 80), false⟩
        ⟨"idle", none, some 100, false, false, none, 50⟩).orders = [] ∧
      (Xmr.engine_tick ⟨87, 0, some (1, 80), false⟩
        ⟨"idle", none, some 100, false, false, none, 50⟩).state.mode
        = ("idle" : String) ∧
      (Xmr.engine_tick ⟨87, 0, some (1, 80), false⟩
        ⟨"idle", none, some 100, false, false, none, 50⟩).state.entry_price
        = (none : Option ℚ) ∧
      (Xmr.engine_tick ⟨87, 0, some (1, 80), false⟩
        ⟨"idle", none, some 100, false, false, none, 50⟩).state.usd_slice
        = (50 : ℚ)) := by
  have hba : (Btc.engine_tick ⟨87, 0, some (1, 80), false⟩
      ⟨"idle", none, some 100, false, false, none, 50⟩).attempted = true := by
    with_unfolding_all rfl
  have hxa : (Xmr.engine_tick ⟨87, 0, some (1, 80), false⟩
      ⟨"idle", none, some 100, false, false, none, 50⟩).attempted = true := by
    with_unfolding_all rfl
  have h := c9_order_failure_not_partially_applied
    ⟨87, 0, some (1, 80), false⟩
    ⟨"idle", none, some 100, false, false, none, 50⟩
    ⟨"idle", none, some 100, false, false, none, 50⟩ rfl
  exact ⟨hba, hxa, h.1 hba, h.2 hxa⟩

/-! ### Lemmas: asset-in-hand adoption (ETH/SOL/XRP) -/

lemma eth_ensure_mode (se : Eth.State) (b p : ℚ)
    (hm : se.mode = "idle") (hbpos : 0 < b) :
    (Eth.ensure_hold_if_asset_present se b p).mode = "hold" := by
  simp only [Eth.ensure_hold_if_asset_present]
  split_ifs with h1 h2
  · rfl
  · rfl
  · exact absurd ⟨hbpos, hm⟩ h1


lemma eth_ensure_entry (se : Eth.State) (b p : ℚ) :
    (Eth.ensure_hold_if_asset_present se b p).entry_price
      = se.entry_price := by
  simp only [Eth.ensure_hold_if_asset_present]
  split_ifs <;> rfl

lemma eth_ensure_low_none (se : Eth.State) (b p : ℚ)
    (hm : se.mode = "idle") (hbpos : 0 < b)
    (hsl : se.last_swing_low = none) :
    (Eth.ensure_hold_if_asset_present se b p).last_swing_low = some p := by
  simp only [Eth.ensure_hold_if_asset_present]
  split_ifs <;> simp_all

lemma eth_update_mode (s : Eth.State) (p : ℚ) :
    (Eth.update_swing_extremes s p).mode = s.mode := by
  simp only [Eth.update_swing_extremes]
  split_ifs <;> rfl

lemma eth_update_entry (s : Eth.State) (p : ℚ) :
    (Eth.update_swing_extremes s p).entry_price = s.entry_price := by
  simp only [Eth.update_swing_extremes]
  split_ifs <;> rfl

lemma eth_update_low_price (s : Eth.State) (p : ℚ)
    (h : s.last_swing_low = some p) :
    (Eth.update_swing_extremes s p).last_swing_low = some p := by
  simp only [Eth.update_swing_extremes]
  split_ifs <;> simp_all

lemma eth_heartbeat_mode (env : Env) (s : Eth.State) :
    (Eth.maybe_send_heartbeat env s).mode = s.mode := by
  simp only [Eth.maybe_send_heartbeat]
  split_ifs <;> rfl

lemma eth_heartbeat_entry (env : Env) (s : Eth.State) :
    (Eth.maybe_send_heartbeat env s).entry_price = s.entry_price := by
  simp only [Eth.maybe_send_heartbeat]
  split_ifs <;> rfl

lemma eth_heartbeat_low (env : Env) (s : Eth.State) :
    (Eth.maybe_send_heartbeat env s).last_swing_low = s.last_swing_low := by
  simp only [Eth.maybe_send_heartbeat]
  split_ifs <;> rfl

lemma commit_of_not_raised {σ : Type} (s0 : σ) (r : ExecOut σ)
    (h : r.raised = false) :
    commit s0 r = ⟨r.state, true, r.orders, r.events, r.attempted⟩ := by
  rw [commit, h]
  simp

lemma eth_sell_raised (r : String) (env : Env) (t : Eth.State) (b u : ℚ)
    (hb : env.balances = some (b, u)) (hok : env.order_ok = true) :
    (Eth.execute_sell r env t).raised = false := by
  simp only [Eth.execute_sell, hb, hok]
  split_ifs <;> rfl

lemma eth_sell_entry (r : String) (env : Env) (t : Eth.State) (b u : ℚ)
    (hb : env.balances = some (b, u)) (hok : env.order_ok = true) :
    (Eth.execute_sell r env t).state.entry_price = t.entry_price := by
  simp only [Eth.execute_sell, hb, hok]
  split_ifs <;> rfl

lemma eth_sell_low (r : String) (env : Env) (t : Eth.State) (b u : ℚ)
    (hb : env.balances = some (b, u)) (hok : env.order_ok = true) :
    (Eth.execute_sell r env t).state.last_swing_low
      = t.last_swing_low := by
  simp only [Eth.execute_sell, hb, hok]
  split_ifs <;> rfl

lemma eth_sell_orders (r : String) (env : Env) (t : Eth.State) (b u : ℚ)
    (hb : env.balances = some (b, u)) (hok : env.order_ok = true) :
    ∀ o ∈ (Eth.execute_sell r env t).orders, o.1 = "sell" := by
  simp only [Eth.execute_sell, hb, hok]
  split_ifs <;> simp

lemma eth_sell_mode_ne (r : String) (env : Env) (t : Eth.State) (b u : ℚ)
    (hb : env.balances = some (b, u)) (hok : env.order_ok = true)
    (hm : t.mode = "hold") :
    (Eth.execute_sell r env t).state.mode ≠ "idle" := by
  simp only [Eth.execute_sell, hb, hok]
  split_ifs <;> simp_all

lemma eth_hold_ok (env : Env) (s0 s : Eth.State) (b u : ℚ)
    (hb : env.balances = some (b, u)) (hok : env.order_ok = true)
    (hm : s.mode = "hold") :
    (Eth.hold_step env s0 s).completed = true ∧
    (∀ o ∈ (Eth.hold_step env s0 s).orders, o.1 = "sell") ∧
    (Eth.hold_step env s0 s).state.mode ≠ "idle" ∧
    (Eth.hold_step env s0 s).state.entry_price = s.entry_price ∧
    (Eth.hold_step env s0 s).state.last_swing_low = s.last_swing_low := by
  have hc : ∀ r t, commit s0 (Eth.execute_sell r env t)
      = ⟨(Eth.execute_sell r env t).state, true,
         (Eth.execute_sell r env t).orders,
         (Eth.execute_sell r env t).events,
         (Eth.execute_sell r env t).attempted⟩ :=
    fun r t => commit_of_not_raised s0 _ (eth_sell_raised r env t b u hb hok)
  simp only [Eth.hold_step, hc]
  split_ifs <;> first
    | exact ⟨rfl, eth_sell_orders _ env _ b u hb hok,
        eth_sell_mode_ne _ env _ b u hb hok hm,
        eth_sell_entry _ env _ b u hb hok,
        eth_sell_low _ env _ b u hb hok⟩
    | exact ⟨rfl, by simp, by simp [hm], rfl, rfl⟩

lemma eth_tick_eq_hold (env : Env) (s0 : Eth.State) (b u : ℚ)
    (hb : env.balances = some (b, u))
    (hmode : (Eth.maybe_send_heartbeat env
        (Eth.update_swing_extremes
          (Eth.ensure_hold_if_asset_present s0 b env.price)
          env.price)).mode = "hold") :
    Eth.engine_tick env s0
      = Eth.hold_step env s0
          (Eth.maybe_send_heartbeat env
            (Eth.update_swing_extremes
              (Eth.ensure_hold_if_asset_present s0 b env.price)
              env.price)) := by
  simp only [Eth.engine_tick, hb]
  rw [if_neg (by rw [hmode]; decide), if_pos hmode]

lemma eth_adopt (env : Env) (se : Eth.State) (b u : ℚ)
    (hm : se.mode = "idle") (hb : env.balances = some (b, u))
    (hbpos : 0 < b) (hok : env.order_ok = true) :
    (Eth.engine_tick env se).completed = true ∧
    (∀ o ∈ (Eth.engine_tick env se).orders, o.1 = "sell") ∧
    (Eth.engine_tick env se).state.mode ≠ "idle" ∧
    (Eth.engine_tick env se).state.entry_price = se.entry_price ∧
    (se.last_swing_low = none →
      (Eth.engine_tick env se).state.last_swing_low = some env.price) := by
  have hmode : (Eth.maybe_send_heartbeat env
      (Eth.update_swing_extremes
        (Eth.ensure_hold_if_asset_present se b env.price)
        env.price)).mode = "hold" := by
    rw [eth_heartbeat_mode, eth_update_mode,
      eth_ensure_mode se b env.price hm hbpos]
  have hentry : (Eth.maybe_send_heartbeat env
      (Eth.update_swing_extremes
        (Eth.ensure_hold_if_asset_present se b env.price)
        env.price)).entry_price = se.entry_price := by
    rw [eth_heartbeat_entry, eth_update_entry, eth_ensure_entry]
  rw [eth_tick_eq_hold env se b u hb hmode]
  obtain ⟨h1, h2, h3, h4, h5⟩ := eth_hold_ok env se _ b u hb hok hmode
  refine ⟨h1, h2, h3, by rw [h4, hentry], fun hsl => ?_⟩
  have hlow : (Eth.maybe_send_heartbeat env
      (Eth.update_swing_extremes
        (Eth.ensure_hold_if_asset_present se b env.price)
        env.price)).last_swing_low = some env.price := by
    rw [eth_heartbeat_low]
    exact eth_update_low_price _ _ (eth_ensure_low_none se b env.price hm hbpos hsl)
  rw [h5, hlow]

lemma sol_ensure_mode (se : Sol.State) (b p : ℚ)
    (hm : se.mode = "idle") (hbpos : 0 < b) :
    (Sol.ensure_hold_if_asset_present se b p).mode = "hold" := by
  simp only [Sol.ensure_hold_if_asset_present]
  split_ifs with h1 h2
  · rfl
  · rfl
  · exact absurd ⟨hbpos, hm⟩ h1


lemma sol_ensure_entry (se : Sol.State) (b p : ℚ) :
    (Sol.ensure_hold_if_asset_present se b p).entry_price
      = se.entry_price := by
  simp only [Sol.ensure_hold_if_asset_present]
  split_ifs <;> rfl

lemma sol_ensure_low_none (se : Sol.State) (b p : ℚ)
    (hm : se.mode = "idle") (hbpos : 0 < b)
    (hsl : se.last_swing_low = none) :
    (Sol.ensure_hold_if_asset_present se b p).last_swing_low = some p := by
  simp only [Sol.ensure_hold_if_asset_present]
  split_ifs <;> simp_all

lemma sol_update_mode (s : Sol.State) (p : ℚ) :
    (Sol.update_swing_extremes s p).mode = s.mode := by
  simp only [Sol.update_swing_extremes]
  split_ifs <;> rfl

lemma sol_update_entry (s : Sol.State) (p : ℚ) :
    (Sol.update_swing_extremes s p).entry_price = s.entry_price := by
  simp only [Sol.update_swing_extremes]
  split_ifs <;> rfl

lemma sol_update_low_price (s : Sol.State) (p : ℚ)
    (h : s.last_swing_low = some p) :
    (Sol.update_swing_extremes s p).last_swing_low = some p := by
  simp only [Sol.update_swing_extremes]
  split_ifs <;> simp_all

lemma sol_heartbeat_mode (env : Env) (s : Sol.State) :
    (Sol.maybe_send_heartbeat env s).mode = s.mode := by
  simp only [Sol.maybe_send_heartbeat]
  split_ifs <;> rfl

lemma sol_heartbeat_entry (env : Env) (s : Sol.State) :
    (Sol.maybe_send_heartbeat env s).entry_price = s.entry_price := by
  simp only [Sol.maybe_send_heartbeat]
  split_ifs <;> rfl

lemma sol_heartbeat_low (env : Env) (s : Sol.State) :
    (Sol.maybe_send_heartbeat env s).last_swing_low = s.last_swing_low := by
  simp only [Sol.maybe_send_heartbeat]
  split_ifs <;> rfl

lemma sol_sell_raised (r : String) (env : Env) (t : Sol.State) (b u : ℚ)
    (hb : env.balances = some (b, u)) (hok : env.order_ok = true) :
    (Sol.execute_sell r env t).raised = false := by
  simp only [Sol.execute_sell, hb, hok]
  split_ifs <;> rfl

lemma sol_sell_entry (r : String) (env : Env) (t : Sol.State) (b u : ℚ)
    (hb : env.balances = some (b, u)) (hok : env.order_ok = true) :
    (Sol.execute_sell r env t).state.entry_price = t.entry_price := by
  simp only [Sol.execute_sell, hb, hok]
  split_ifs <;> rfl

lemma sol_sell_low (r : String) (env : Env) (t : Sol.State) (b u : ℚ)
    (hb : env.balances = some (b, u)) (hok : env.order_ok = true) :
    (Sol.execute_sell r env t).state.last_swing_low
      = t.last_swing_low := by
  simp only [Sol.execute_sell, hb, hok]
  split_ifs <;> rfl

lemma sol_sell_orders (r : String) (env : Env) (t : Sol.State) (b u : ℚ)
    (hb : env.balances = some (b, u)) (hok : env.order_ok = true) :
    ∀ o ∈ (Sol.execute_sell r env t).orders, o.1 = "sell" := by
  simp only [Sol.execute_sell, hb, hok]
  split_ifs <;> simp

lemma sol_sell_mode_ne (r : String) (env : Env) (t : Sol.State) (b u : ℚ)
    (hb : env.balances = some (b, u)) (hok : env.order_ok = true)
    (hm : t.mode = "hold") :
    (Sol.execute_sell r env t).state.mode ≠ "idle" := by
  simp only [Sol.execute_sell, hb, hok]
  split_ifs <;> simp_all

lemma sol_hold_ok (env : Env) (s0 s : Sol.State) (b u : ℚ)
    (hb : env.balances = some (b, u)) (hok : env.order_ok = true)
    (hm : s.mode = "hold") :
    (Sol.hold_step env s0 s).completed = true ∧
    (∀ o ∈ (Sol.hold_step env s0 s).orders, o.1 = "sell") ∧
    (Sol.hold_step env s0 s).state.mode ≠ "idle" ∧
    (Sol.hold_step env s0 s).state.entry_price = s.entry_price ∧
    (Sol.hold_step env s0 s).state.last_swing_low = s.last_swing_low := by
  have hc : ∀ r t, commit s0 (Sol.execute_sell r env t)
      = ⟨(Sol.execute_sell r env t).state, true,
         (Sol.execute_sell r env t).orders,
         (Sol.execute_sell r env t).events,
         (Sol.execute_sell r env t).attempted⟩ :=
    fun r t => commit_of_not_raised s0 _ (sol_sell_raised r env t b u hb hok)
  simp only [Sol.hold_step, hc]
  split_ifs <;> first
    | exact ⟨rfl, sol_sell_orders _ env _ b u hb hok,
        sol_sell_mode_ne _ env _ b u hb hok hm,
        sol_sell_entry _ env _ b u hb hok,
        sol_sell_low _ env _ b u hb hok⟩
    | exact ⟨rfl, by simp, by simp [hm], rfl, rfl⟩

lemma sol_tick_eq_hold (env : Env) (s0 : Sol.State) (b u : ℚ)
    (hb : env.balances = some (b, u))
    (hmode : (Sol.maybe_send_heartbeat env
        (Sol.update_swing_extremes
          (Sol.ensure_hold_if_asset_present s0 b env.price)
          env.price)).mode = "hold") :
    Sol.engine_tick env s0
      = Sol.hold_step env s0
          (Sol.maybe_send_heartbeat env
            (Sol.update_swing_extremes
              (Sol.ensure_hold_if_asset_present s0 b env.price)
              env.price)) := by
  simp only [Sol.engine_tick, hb]
  rw [if_neg (by rw [hmode]; decide), if_pos hmode]

lemma sol_adopt (env : Env) (se : Sol.State) (b u : ℚ)
    (hm : se.mode = "idle") (hb : env.balances = some (b, u))
    (hbpos : 0 < b) (hok : env.order_ok = true) :
    (Sol.engine_tick env se).completed = true ∧
    (∀ o ∈ (Sol.engine_tick env se).orders, o.1 = "sell") ∧
    (Sol.engine_tick env se).state.mode ≠ "idle" ∧
    (Sol.engine_tick env se).state.entry_price = se.entry_price ∧
    (se.last_swing_low = none →
      (Sol.engine_tick env se).state.last_swing_low = some env.price) := by
  have hmode : (Sol.maybe_send_heartbeat env
      (Sol.update_swing_extremes
        (Sol.ensure_hold_if_asset_present se b env.price)
        env.price)).mode = "hold" := by
    rw [sol_heartbeat_mode, sol_update_mode,
      sol_ensure_mode se b env.price hm hbpos]
  have hentry : (Sol.maybe_send_heartbeat env
      (Sol.update_swing_extremes
        (Sol.ensure_hold_if_asset_present se b env.price)
        env.price)).entry_price = se.entry_price := by
    rw [sol_heartbeat_entry, sol_update_entry, sol_ensure_entry]
  rw [sol_tick_eq_hold env se b u hb hmode]
  obtain ⟨h1, h2, h3, h4, h5⟩ := sol_hold_ok env se _ b u hb hok hmode
  refine ⟨h1, h2, h3, by rw [h4, hentry], fun hsl => ?_⟩
  have hlow : (Sol.maybe_send_heartbeat env
      (Sol.update_swing_extremes
        (Sol.ensure_hold_if_asset_present se b env.price)
        env.price)).last_swing_low = some env.price := by
    rw [sol_heartbeat_low]
    exact sol_update_low_price _ _ (sol_ensure_low_none se b env.price hm hbpos hsl)
  rw [h5, hlow]

lemma xrp_track_mode (p : ℚ) (s : Xrp.State) :
    (Xrp.track_swing_high p s).mode = s.mode := by
  simp only [Xrp.track_swing_high]
  split_ifs <;> rfl

lemma xrp_track_entry (p : ℚ) (s : Xrp.State) :
    (Xrp.track_swing_high p s).entry_price = s.entry_price := by
  simp only [Xrp.track_swing_high]
  split_ifs <;> rfl

lemma xrp_detect_mode (s : Xrp.State) (b p : ℚ)
    (hm : s.mode = "idle") (hbpos : 0 < b) :
    (Xrp.detect_initial_position s b p).mode = "hold" := by
  simp only [Xrp.detect_initial_position]
  split_ifs with h1 h2
  · rfl
  · rfl
  · exact absurd ⟨hbpos, hm⟩ h1

lemma xrp_detect_entry_none (s : Xrp.State) (b p : ℚ)
    (hm : s.mode = "idle") (hbpos : 0 < b) (he : s.entry_price = none) :
    (Xrp.detect_initial_position s b p).entry_price = some p := by
  simp only [Xrp.detect_initial_position]
  split_ifs <;> simp_all

lemma xrp_heartbeat_mode (env : Env) (s : Xrp.State) :
    (Xrp.maybe_send_heartbeat env s).mode = s.mode := by
  simp only [Xrp.maybe_send_heartbeat]
  split_ifs <;> rfl

lemma xrp_heartbeat_entry (env : Env) (s : Xrp.State) :
    (Xrp.maybe_send_heartbeat env s).entry_price = s.entry_price := by
  simp only [Xrp.maybe_send_heartbeat]
  split_ifs <;> rfl

lemma xrp_sell_raised (r : String) (env : Env) (t : Xrp.State) (b u : ℚ)
    (hb : env.balances = some (b, u)) (hok : env.order_ok = true) :
    (Xrp.execute_sell r env t).raised = false := by
  simp only [Xrp.execute_sell, hb, hok]
  split_ifs <;> rfl

lemma xrp_sell_entry (r : String) (env : Env) (t : Xrp.State) (b u : ℚ)
    (hb : env.balances = some (b, u)) (hok : env.order_ok = true) :
    (Xrp.execute_sell r env t).state.entry_price = t.entry_price := by
  simp only [Xrp.execute_sell, hb, hok]
  split_ifs <;> rfl

lemma xrp_sell_orders (r : String) (env : Env) (t : Xrp.State) (b u : ℚ)
    (hb : env.balances = some (b, u)) (hok : env.order_ok = true) :
    ∀ o ∈ (Xrp.execute_sell r env t).orders, o.1 = "sell" := by
  simp only [Xrp.execute_sell, hb, hok]
  split_ifs <;> simp

lemma xrp_sell_mode_ne (r : String) (env : Env) (t : Xrp.State) (b u : ℚ)
    (hb : env.balances = some (b, u)) (hok : env.order_ok = true)
    (hm : t.mode = "hold") :
    (Xrp.execute_sell r env t).state.mode ≠ "idle" := by
  simp only [Xrp.execute_sell, hb, hok]
  split_ifs <;> simp_all

lemma xrp_hold_ok (env : Env) (s0 s : Xrp.State) (b u : ℚ)
    (hb : env.balances = some (b, u)) (hok : env.order_ok = true)
    (hm : s.mode = "hold") :
    (Xrp.hold_step env s0 s).completed = true ∧
    (∀ o ∈ (Xrp.hold_step env s0 s).orders, o.1 = "sell") ∧
    (Xrp.hold_step env s0 s).state.mode ≠ "idle" ∧
    (Xrp.hold_step env s0 s).state.entry_price = s.entry_price := by
  have hc : ∀ r t, commit s0 (Xrp.execute_sell r env t)
      = ⟨(Xrp.execute_sell r env t).state, true,
         (Xrp.execute_sell r env t).orders,
         (Xrp.execute_sell r env t).events,
         (Xrp.execute_sell r env t).attempted⟩ :=
    fun r t => commit_of_not_raised s0 _ (xrp_sell_raised r env t b u hb hok)
  simp only [Xrp.hold_step, hc]
  split_ifs <;> first
    | exact ⟨rfl, xrp_sell_orders _ env _ b u hb hok,
        xrp_sell_mode_ne _ env _ b u hb hok hm,
        xrp_sell_entry _ env _ b u hb hok⟩
    | exact ⟨rfl, by simp, by simp [hm], rfl⟩

lemma xrp_tick_eq_hold (env : Env) (s0 : Xrp.State) (b u : ℚ)
    (hb : env.balances = some (b, u))
    (hmode : (Xrp.maybe_send_heartbeat env
        (Xrp.detect_initial_position
          (Xrp.track_swing_high env.price s0) b env.price)).mode
      = "hold") :
    Xrp.engine_tick env s0
      = Xrp.hold_step env s0
          (Xrp.maybe_send_heartbeat env
            (Xrp.detect_initial_position
              (Xrp.track_swing_high env.price s0) b env.price)) := by
  simp only [Xrp.engine_tick, hb]
  rw [if_neg (by rw [hmode]; decide), if_pos hmode]

lemma xrp_adopt (env : Env) (sx : Xrp.State) (b u : ℚ)
    (hm : sx.mode = "idle") (hb : env.balances = some (b, u))
    (hbpos : 0 < b) (hok : env.order_ok = true) :
    (Xrp.engine_tick env sx).completed = true ∧
    (∀ o ∈ (Xrp.engine_tick env sx).orders, o.1 = "sell") ∧
    (Xrp.engine_tick env sx).state.mode ≠ "idle" ∧
    (sx.entry_price = none →
      (Xrp.engine_tick env sx).state.entry_price = some env.price) := by
  have hmtrack : (Xrp.track_swing_high env.price sx).mode = "idle" := by
    rw [xrp_track_mode, hm]
  have hmode : (Xrp.maybe_send_heartbeat env
      (Xrp.detect_initial_position
        (Xrp.track_swing_high env.price sx) b env.price)).mode = "hold" := by
    rw [xrp_heartbeat_mode, xrp_detect_mode _ b env.price hmtrack hbpos]
  rw [xrp_tick_eq_hold env sx b u hb hmode]
  obtain ⟨h1, h2, h3, h4⟩ := xrp_hold_ok env sx _ b u hb hok hmode
  refine ⟨h1, h2, h3, fun he => ?_⟩
  have hetrack : (Xrp.track_swing_high env.price sx).entry_price = none := by
    rw [xrp_track_entry, he]
  have hentry : (Xrp.maybe_send_heartbeat env
      (Xrp.detect_initial_position
        (Xrp.track_swing_high env.price sx) b env.price)).entry_price
      = some env.price := by
    rw [xrp_heartbeat_entry]
    exact xrp_detect_entry_none _ b env.price hmtrack hbpos hetrack
  rw [h4, hentry]

/-- C10: in the ETH, SOL and XRP workers, a tick that starts in mode
"idle" with a strictly positive asset balance adopts the balance as an
already-held position before the buy trigger is evaluated: the tick
completes, no buy order is submitted (any order it submits is a sell),
the persisted mode is no longer "idle", the ETH/SOL variants leave
`entry_price` unchanged and initialise the swing low (the PnL anchor) to
the current price when previously unset, and the XRP variant sets
`entry_price` to the current price when previously unset. -/
theorem c10_asset_in_hand_adoption
    (enve : Env) (se : Eth.State) (be ue : ℚ)
    (envs : Env) (ss : Sol.State) (bs us : ℚ)
    (envx : Env) (sx : Xrp.State) (bx ux : ℚ)
    (hme : se.mode = "idle") (hbe : enve.balances = some (be, ue))
    (hbpe : 0 < be) (hoke : enve.order_ok = true)
    (hms : ss.mode = "idle") (hbs : envs.balances = some (bs, us))
    (hbps : 0 < bs) (hoks : envs.order_ok = true)
    (hmx : sx.mode = "idle") (hbx : envx.balances = some (bx, ux))
    (hbpx : 0 < bx) (hokx : envx.order_ok = true) :
    ((Eth.engine_tick enve se).completed = true ∧
     (∀ o ∈ (Eth.engine_tick enve se).orders, o.1 = "sell") ∧
     (Eth.engine_tick enve se).state.mode ≠ "idle" ∧
     (Eth.engine_tick enve se).state.entry_price = se.entry_price ∧
     (se.last_swing_low = none →
       (Eth.engine_tick enve se).state.last_swing_low = some enve.price)) ∧
    ((Sol.engine_tick envs ss).completed = true ∧
     (∀ o ∈ (Sol.engine_tick envs ss).orders, o.1 = "sell") ∧
     (Sol.engine_tick envs ss).state.mode ≠ "idle" ∧
     (Sol.engine_tick envs ss).state.entry_price = ss.entry_price ∧
     (ss.last_swing_low = none →
       (Sol.engine_tick envs ss).state.last_swing_low = some envs.price)) ∧
    ((Xrp.engine_tick envx sx).completed = true ∧
     (∀ o ∈ (Xrp.engine_tick envx sx).orders, o.1 = "sell") ∧
     (Xrp.engine_tick envx sx).state.mode ≠ "idle" ∧
     (sx.entry_price = none →
       (Xrp.engine_tick envx sx).state.entry_price = some envx.price)) :=
  ⟨eth_adopt enve se be ue hme hbe hbpe hoke,
   sol_adopt envs ss bs us hms hbs hbps hoks,
   xrp_adopt envx sx bx ux hmx hbx hbpx hokx⟩

/-- Witness for `c10_asset_in_hand_adoption`: each worker's first-run
state, price 100, asset balance 2, order submission succeeding. -/
theorem c10_witness :
    ((Eth.engine_tick ⟨100, 0, some (2, 0), true⟩
        (Eth.initState 0)).completed = true ∧
     (∀ o ∈ (Eth.engine_tick ⟨100, 0, some (2, 0), true⟩
        (Eth.initState 0)).orders, o.1 = "sell") ∧
     (Eth.engine_tick ⟨100, 0, some (2, 0), true⟩
        (Eth.initState 0)).state.mode ≠ "idle" ∧
     (Eth.engine_tick ⟨100, 0, some (2, 0), true⟩
        (Eth.initState 0)).state.entry_price = (Eth.initState 0).entry_price ∧
     ((Eth.initState 0).last_swing_low = none →
       (Eth.engine_tick ⟨100, 0, some (2, 0), true⟩
        (Eth.initState 0)).state.last_swing_low = some 100)) ∧
    ((Sol.engine_tick ⟨100, 0, some (2, 0), true⟩
        (Sol.initState 0)).completed = true ∧
     (∀ o ∈ (Sol.engine_tick ⟨100, 0, some (2, 0), true⟩
        (Sol.initState 0)).orders, o.1 = "sell") ∧
     (Sol.engine_tick ⟨100, 0, some (2, 0), true⟩
        (Sol.initState 0)).state.mode ≠ "idle" ∧
     (Sol.engine_tick ⟨100, 0, some (2, 0), true⟩
        (Sol.initState 0)).state.entry_price = (Sol.initState 0).entry_price ∧
     ((Sol.initState 0).last_swing_low = none →
       (Sol.engine_tick ⟨100, 0, some (2, 0), true⟩
        (Sol.initState 0)).state.last_swing_low = some 100)) ∧
    ((Xrp.engine_tick ⟨100, 0, some (2, 0), true⟩
        (Xrp.initState 0)).completed = true ∧
     (∀ o ∈ (Xrp.engine_tick ⟨100, 0, some (2, 0), true⟩
        (Xrp.initState 0)).orders, o.1 = "sell") ∧
     (Xrp.engine_tick ⟨100, 0, some (2, 0), true⟩
        (Xrp.initState 0)).state.mode ≠ "idle" ∧
     ((Xrp.initState 0).entry_price = none →
       (Xrp.engine_tick ⟨100, 0, some (2, 0), true⟩
        (Xrp.initState 0)).state.entry_price = some 100)) :=
  c10_asset_in_hand_adoption
    ⟨100, 0, some (2, 0), true⟩ (Eth.initState 0) 2 0
    ⟨100, 0, some (2, 0), true⟩ (Sol.initState 0) 2 0
    ⟨100, 0, some (2, 0), true⟩ (Xrp.initState 0) 2 0
    rfl rfl (by norm_num) rfl
    rfl rfl (by norm_num) rfl
    rfl rfl (by norm_num) rfl
